import Mathlib

/-!
Status decoding of the MS213x video chip (`status.go`).

A shallow embedding of the decoding strategies of `status.go`
(`readMurderous`, `readFlaky`, `readUnknown`, `readFazant`, `readBertold`)
and of the poll loop `StatusCmd.Run` with its two renderings and its sink,
together with theorems about what they decode and emit.

Conventions of the embedding

* A Go `byte` is a `Fin 256`; a Go `int` is an `Int`.  Every integer the
  strategies compute is at most `2 * (255 * 256 + 255)`, far inside the range
  of a machine `int`, so no wrap-around is modelled.
* The function mutates the snapshot behind the pointer `output`.  The
  embedding passes the snapshot in and returns the snapshot as it stands when
  the function returns, or when it panics on an index out of range.
* The chip is reached through two collaborators, a memory read and a
  procedure call.  Their answers are a script held by the `Context`: each call
  consumes the next answer and is recorded in a log.
* A run of `Run` is a `Poller`: the collaborators, the readings of the clock,
  the events so far (prints, file writes, sleeps) and the phase.  `cycle` is
  one pass through the body of the loop and `Run` repeats it for a given
  number of cycles at most.
-/

set_option linter.dupNamespace false

namespace Status

/-- One byte of a Go `[]byte`. -/
abbrev Byte := Fin 256

/-- Go: `type Region struct { Region string; Addr int }`. -/
structure Region where
  Region : String
  Addr : Int
  deriving DecidableEq, Repr

/-- Go: `type OutputData struct`, the status snapshot.  The zero value of the
Go struct is the default value here. -/
structure OutputData where
  Width : Int := 0
  Height : Int := 0
  Signal : String := ""
  Time : Int := 0
  FrameID : Int := 0
  Colorspace : String := ""
  Format : String := ""
  deriving DecidableEq, Repr

/-- The registers of `mshal.PatchExecFuncResponse` that `readBertold` reads.
They are unsigned machine values; `int(resp.R3)` is their value as an `int`. -/
structure PatchExecFuncResponse where
  A : Nat := 0
  R2 : Nat := 0
  R3 : Nat := 0
  R4 : Nat := 0
  R5 : Nat := 0
  R6 : Nat := 0
  deriving DecidableEq, Repr

/-- A call made to one of the two collaborators. -/
inductive Call where
  | readmem (r : Region) (amount : Int)
  | patchExecFunc (inIRQ : Bool) (addr : Int)
  deriving DecidableEq, Repr

/-- The collaborators as seen by one run: the answers the next memory reads
will give (`[]` is the empty buffer), the answers the next procedure calls
will give (`none` is a call that returns an error), and the calls made so
far. -/
structure Context where
  reads : List (List Byte) := []
  execs : List (Option PatchExecFuncResponse) := []
  log : List Call := []
  deriving DecidableEq, Repr

/-- How a strategy ends: it returns its boolean, or the Go runtime panics on
an index out of range. -/
inductive Outcome where
  | returned (ok : Bool)
  | panicked
  deriving DecidableEq, Repr

/-- The state a strategy leaves behind: how it ended, the snapshot behind the
`output` pointer at that moment, and the collaborators. -/
structure Result where
  outcome : Outcome
  output : OutputData
  ctx : Context
  deriving DecidableEq, Repr

/-- Modelled from the spec: the memory access collaborator `readmem`, which
`status.go` calls and does not define.  Given a region and a length it returns
a byte sequence, the empty one when the read is unavailable.  The answer is
the next one of the script; a script that has run out answers with the empty
buffer. -/
def readmem (c : Context) (r : Region) (amount : Int) : List Byte × Context :=
  match c.reads with
  | [] => ([], { c with log := c.log ++ [Call.readmem r amount] })
  | buf :: rest => (buf, { c with reads := rest, log := c.log ++ [Call.readmem r amount] })

/-- Modelled from the spec: the procedure access collaborator
`c.hal.PatchExecFunc` of the library `mshal`.  It returns a register response
or an error (`none`).  A script that has run out answers with an error. -/
def PatchExecFunc (c : Context) (inIRQ : Bool) (addr : Int) :
    Option PatchExecFuncResponse × Context :=
  match c.execs with
  | [] => (none, { c with log := c.log ++ [Call.patchExecFunc inIRQ addr] })
  | resp :: rest =>
    (resp, { c with execs := rest, log := c.log ++ [Call.patchExecFunc inIRQ addr] })

/-- Go: `int(buf[i])`, which panics (`none`) when `i` is outside the
buffer. -/
def byteAt (buf : List Byte) (i : Nat) : Option Int :=
  match buf.get? i with
  | some b => some (b.val : Int)
  | none => none

/-- Go: `func readMurderous(c *Context, output *OutputData) bool`. -/
def readMurderous (c : Context) (output : OutputData) : Result :=
  match readmem c { Region := "RAM", Addr := 0x0000e180 } 16 with
  | (buf, c) =>
    if buf.length = 0 then
      ⟨Outcome.returned false, output, c⟩
    else
      -- signal := int(buf[0:1][0])
      match byteAt (buf.take 1) 0 with
      | none => ⟨Outcome.panicked, output, c⟩
      | some signal =>
        -- output.Width = (int(buf[5]) * 256) + int(buf[4])
        match byteAt buf 5, byteAt buf 4 with
        | some b5, some b4 =>
          let output := { output with Width := (b5 * 256) + b4 }
          -- output.Height = (int(buf[13]) * 256) + int(buf[12])
          match byteAt buf 13, byteAt buf 12 with
          | some b13, some b12 =>
            let output := { output with Height := (b13 * 256) + b12 }
            let output :=
              if signal = 15 then { output with Height := 2 * output.Height } else output
            let output :=
              if signal > 0 ∧ signal ≠ 8 then { output with Signal := "yes" }
              else { output with Signal := "no" }
            ⟨Outcome.returned true, output, c⟩
          | _, _ => ⟨Outcome.panicked, output, c⟩
        | _, _ => ⟨Outcome.panicked, output, c⟩

/-- Go: `func readFlaky(c *Context, output *OutputData) bool`. -/
def readFlaky (c : Context) (output : OutputData) : Result :=
  match readmem c { Region := "RAM", Addr := 0x0000f660 } 4 with
  | (buf, c) =>
    if buf.length = 0 then
      ⟨Outcome.returned false, output, c⟩
    else
      -- output.Width = int(buf[1])*256 + int(buf[0])
      match byteAt buf 1, byteAt buf 0 with
      | some b1, some b0 =>
        let output := { output with Width := b1 * 256 + b0 }
        -- output.Height = int(buf[3])*256 + int(buf[2])
        match byteAt buf 3, byteAt buf 2 with
        | some b3, some b2 =>
          let output := { output with Height := b3 * 256 + b2 }
          match readmem c { Region := "RAM", Addr := 0x0000f6e9 } 1 with
          | (buf, c) =>
            if buf.length = 0 then
              ⟨Outcome.returned false, output, c⟩
            else
              match byteAt buf 0 with
              | none => ⟨Outcome.panicked, output, c⟩
              | some flag =>
                let output :=
                  if flag = 0 then { output with Signal := "yes" }
                  else { output with Signal := "no" }
                match readmem c { Region := "RAM", Addr := 0x00001c3a } 1 with
                | (buf, c) =>
                  -- no length check: buf[0] panics on an empty buffer
                  match byteAt buf 0 with
                  | none => ⟨Outcome.panicked, output, c⟩
                  | some cs =>
                    let output :=
                      if cs = 0 then { output with Colorspace := "RGB" }
                      else if cs = 1 then { output with Colorspace := "Y422" }
                      else { output with Colorspace := "Y444" }
                    match readmem c { Region := "RAM", Addr := 0x00001c41 } 1 with
                    | (buf, c) =>
                      -- no length check: buf[0] panics on an empty buffer
                      match byteAt buf 0 with
                      | none => ⟨Outcome.panicked, output, c⟩
                      | some fmt =>
                        let output :=
                          if fmt = 0 then { output with Format := "DVI" }
                          else if fmt = 2 then { output with Format := "HDMI" }
                          else output
                        ⟨Outcome.returned true, output, c⟩
        | _, _ => ⟨Outcome.panicked, output, c⟩
      | _, _ => ⟨Outcome.panicked, output, c⟩

/-- Go: `func readUnknown(c *Context, output *OutputData) bool`. -/
def readUnknown (c : Context) (output : OutputData) : Result :=
  match readmem c { Region := "RAM", Addr := 0x0000f606 } 8 with
  | (buf, c) =>
    if buf.length = 0 then
      ⟨Outcome.returned false, output, c⟩
    else
      -- output.Width = int(buf[1])*256 + int(buf[0])
      match byteAt buf 1, byteAt buf 0 with
      | some b1, some b0 =>
        let output := { output with Width := b1 * 256 + b0 }
        -- output.Height = int(buf[7])*256 + int(buf[6])
        match byteAt buf 7, byteAt buf 6 with
        | some b7, some b6 =>
          let output := { output with Height := b7 * 256 + b6 }
          match readmem c { Region := "RAM", Addr := 0x0000f6e9 } 1 with
          | (buf, c) =>
            if buf.length = 0 then
              ⟨Outcome.returned false, output, c⟩
            else
              match byteAt buf 0 with
              | none => ⟨Outcome.panicked, output, c⟩
              | some flag =>
                let output :=
                  if flag = 0 then { output with Signal := "yes" }
                  else { output with Signal := "no" }
                ⟨Outcome.returned true, output, c⟩
        | _, _ => ⟨Outcome.panicked, output, c⟩
      | _, _ => ⟨Outcome.panicked, output, c⟩

/-- Go: `func readFazant(c *Context, output *OutputData) bool`. -/
def readFazant (c : Context) (output : OutputData) : Result :=
  let output := { output with Width := 42 }
  let output := { output with Height := 42 }
  let output := { output with Signal := "fazantfazantfazant" }
  ⟨Outcome.returned true, output, c⟩

/-- Go: `func readBertold(c *Context, output *OutputData, beforescaler bool) bool`. -/
def readBertold (c : Context) (output : OutputData) (beforescaler : Bool) : Result :=
  let addr : Int := if !beforescaler then 0xf406 else 0xf41e
  match PatchExecFunc c true addr with
  | (none, c) => ⟨Outcome.returned false, output, c⟩
  | (some resp, c) =>
    let output := { output with Width := (resp.R3 : Int) * 256 + (resp.R2 : Int) }
    let output := { output with Height := (resp.R5 : Int) * 256 + (resp.R4 : Int) }
    let output :=
      if resp.R6 = 0 then { output with Signal := "yes" }
      else { output with Signal := "no" }
    let output := { output with FrameID := (resp.A : Int) }
    ⟨Outcome.returned true, output, c⟩

/-- Go: the `switch s.Region` of `StatusCmd.Run`, which picks the strategy by
the name of the region; a name that is none of the six runs the flaky one. -/
def readRegion (region : String) (c : Context) (output : OutputData) : Result :=
  if region = "murderous" then readMurderous c output
  else if region = "flaky" then readFlaky c output
  else if region = "unknown" then readUnknown c output
  else if region = "fazant" then readFazant c output
  else if region = "bertold" then readBertold c output true
  else if region = "bertold_scaler" then readBertold c output false
  else readFlaky c output

/-- The snapshot after `n` successive runs of the fazant strategy, each run
working on the snapshot and collaborators the previous one left. -/
def fazantTimes : Nat → Context → OutputData → Result
  | 0, c, output => ⟨Outcome.returned true, output, c⟩
  | n + 1, c, output =>
    let r := fazantTimes n c output
    readFazant r.ctx r.output


/-- Go: `type StatusCmd struct`, the options of the command. -/
structure StatusCmd where
  Json : Bool := false
  Loop : Int := 0
  Filename : String := ""
  Region : String := ""
  deriving DecidableEq, Repr

/-- An argument of `fmt.Sprintf`. -/
inductive Arg where
  | int (v : Int)
  | str (v : String)
  deriving DecidableEq, Repr

/-- Go: `fmt.Sprintf` on the characters of the format, for the two verbs the
template of `Run` uses: `%d` with an integer operand prints it in decimal,
`%s` with a string operand prints the string; every other character of the
format is copied. -/
def sprintfChars : List Char → List Arg → List Char
  | '%' :: 'd' :: fmt, Arg.int v :: args => (toString v).data ++ sprintfChars fmt args
  | '%' :: 's' :: fmt, Arg.str v :: args => v.data ++ sprintfChars fmt args
  | ch :: fmt, args => ch :: sprintfChars fmt args
  | [], _ => []

/-- Go: `fmt.Sprintf(format, args...)`. -/
def Sprintf (format : String) (args : List Arg) : String :=
  String.mk (sprintfChars format.data args)

/-- A value of a member of the JSON object: the fields of `OutputData` are
integers and strings. -/
inductive JsonValue where
  | num (n : Int)
  | str (s : String)
  deriving DecidableEq, Repr

/-- Go: the JSON object `json.Marshal(output)` encodes, read off the struct
tags of `OutputData`: one member per field, in the order of the fields, under
the key of its tag; no tag has `omitempty`, so no member is ever left out. -/
def marshalObject (output : OutputData) : List (String × JsonValue) :=
  [("width", JsonValue.num output.Width),
   ("height", JsonValue.num output.Height),
   ("signal", JsonValue.str output.Signal),
   ("time", JsonValue.num output.Time),
   ("fid", JsonValue.num output.FrameID),
   ("colorspace", JsonValue.str output.Colorspace),
   ("format", JsonValue.str output.Format)]

/-- Modelled from the spec: how the library `encoding/json` writes one
character of a string.  The quote and the backslash get a backslash; the
control characters get their short escape or `\u00XX`; `<`, `>`, `&` and the
two Unicode line separators are written as `\uXXXX`; the rest is copied. -/
def jsonEscape (ch : Char) : List Char :=
  if ch = Char.ofNat 34 ∨ ch = Char.ofNat 92 then [Char.ofNat 92, ch]
  else if ch = Char.ofNat 8 then [Char.ofNat 92, 'b']
  else if ch = Char.ofNat 12 then [Char.ofNat 92, 'f']
  else if ch = Char.ofNat 10 then [Char.ofNat 92, 'n']
  else if ch = Char.ofNat 13 then [Char.ofNat 92, 'r']
  else if ch = Char.ofNat 9 then [Char.ofNat 92, 't']
  else if ch.toNat < 32 ∨ ch = '<' ∨ ch = '>' ∨ ch = '&' then
    [Char.ofNat 92, 'u', '0', '0', Nat.digitChar (ch.toNat / 16), Nat.digitChar (ch.toNat % 16)]
  else if ch.toNat = 0x2028 then [Char.ofNat 92, 'u', '2', '0', '2', '8']
  else if ch.toNat = 0x2029 then [Char.ofNat 92, 'u', '2', '0', '2', '9']
  else [ch]

/-- Modelled from the spec: the text of one JSON value, a decimal literal or
a quoted string. -/
def jsonValueText : JsonValue → String
  | JsonValue.num n => toString n
  | JsonValue.str s => String.mk ([Char.ofNat 34] ++ s.data.flatMap jsonEscape ++ [Char.ofNat 34])

/-- Modelled from the spec: the text of one member, `"key":value`. -/
def jsonMemberText (m : String × JsonValue) : String :=
  "\x22" ++ m.1 ++ "\x22:" ++ jsonValueText m.2

/-- Go: `data, _ := json.Marshal(output); p = string(data)`, the compact text
of the object of `marshalObject`. -/
def Marshal (output : OutputData) : String :=
  "\x7b" ++ ",".intercalate ((marshalObject output).map jsonMemberText) ++ "\x7d"

/-- Modelled from the spec: the decoder of the round trip, `json.Unmarshal`
into an `OutputData`.  A member is looked up by its key; a key that is absent
leaves the zero value, a member of the wrong kind is an error. -/
def lookupInt (obj : List (String × JsonValue)) (key : String) : Option Int :=
  match obj.lookup key with
  | none => some 0
  | some (JsonValue.num n) => some n
  | some (JsonValue.str _) => none

/-- Modelled from the spec: the string member of `key`, as `json.Unmarshal`
reads it. -/
def lookupString (obj : List (String × JsonValue)) (key : String) : Option String :=
  match obj.lookup key with
  | none => some ""
  | some (JsonValue.str s) => some s
  | some (JsonValue.num _) => none

/-- Modelled from the spec: `json.Unmarshal` of an object into an
`OutputData`, by the keys of the struct tags. -/
def unmarshalObject (obj : List (String × JsonValue)) : Option OutputData :=
  match lookupInt obj "width", lookupInt obj "height", lookupString obj "signal",
    lookupInt obj "time", lookupInt obj "fid", lookupString obj "colorspace",
    lookupString obj "format" with
  | some w, some h, some sig, some t, some fid, some cs, some fm =>
    some { Width := w, Height := h, Signal := sig, Time := t, FrameID := fid,
           Colorspace := cs, Format := fm }
  | _, _, _, _, _, _, _ => none

/-- Modelled from the spec: the value of a decimal digit, as the decoder of
`encoding/json` reads it. -/
def digitValue (ch : Char) : Option Nat :=
  if 48 ≤ ch.toNat ∧ ch.toNat ≤ 57 then some (ch.toNat - 48) else none

/-- Modelled from the spec: the decoder reads the digits of a number, most
significant first, up to the first character that is no digit. -/
def parseDigits (acc : Nat) : List Char → Nat × List Char
  | [] => (acc, [])
  | ch :: rest =>
    match digitValue ch with
    | some v => parseDigits (acc * 10 + v) rest
    | none => (acc, ch :: rest)

/-- Modelled from the spec: the decoder reads an integer literal, an optional
minus sign and at least one digit. -/
def parseInt (chars : List Char) : Option (Int × List Char) :=
  match chars with
  | [] => none
  | ch :: rest =>
    if ch = '-' then
      match rest with
      | [] => none
      | d :: _ =>
        match digitValue d with
        | none => none
        | some _ => some (-((parseDigits 0 rest).1 : Int), (parseDigits 0 rest).2)
    else
      match digitValue ch with
      | none => none
      | some _ => some (((parseDigits 0 chars).1 : Int), (parseDigits 0 chars).2)

/-- Modelled from the spec: the value of a hexadecimal digit of a `\uXXXX`
escape. -/
def hexValue (ch : Char) : Option Nat :=
  if 48 ≤ ch.toNat ∧ ch.toNat ≤ 57 then some (ch.toNat - 48)
  else if 97 ≤ ch.toNat ∧ ch.toNat ≤ 102 then some (ch.toNat - 87)
  else if 65 ≤ ch.toNat ∧ ch.toNat ≤ 70 then some (ch.toNat - 55)
  else none

/-- Modelled from the spec: the character a short escape `\e` stands for. -/
def unescapeShort (e : Char) : Option Char :=
  if e = Char.ofNat 34 then some (Char.ofNat 34)
  else if e = Char.ofNat 92 then some (Char.ofNat 92)
  else if e = '/' then some '/'
  else if e = 'b' then some (Char.ofNat 8)
  else if e = 'f' then some (Char.ofNat 12)
  else if e = 'n' then some (Char.ofNat 10)
  else if e = 'r' then some (Char.ofNat 13)
  else if e = 't' then some (Char.ofNat 9)
  else none

/-- Modelled from the spec: the decoder reads the body of a string, after its
opening quote and up to the closing one, undoing the escapes. -/
def parseStringBody : List Char → Option (List Char × List Char)
  | [] => none
  | ch :: rest =>
    if ch = Char.ofNat 34 then some ([], rest)
    else if ch = Char.ofNat 92 then
      match rest with
      | [] => none
      | e :: rest2 =>
        if e = 'u' then
          match rest2 with
          | h1 :: h2 :: h3 :: h4 :: rest3 =>
            match hexValue h1, hexValue h2, hexValue h3, hexValue h4, parseStringBody rest3 with
            | some v1, some v2, some v3, some v4, some (body, after) =>
              some (Char.ofNat (((v1 * 16 + v2) * 16 + v3) * 16 + v4) :: body, after)
            | _, _, _, _, _ => none
          | _ => none
        else
          match unescapeShort e, parseStringBody rest2 with
          | some c, some (body, after) => some (c :: body, after)
          | _, _ => none
    else
      match parseStringBody rest with
      | some (body, after) => some (ch :: body, after)
      | none => none

/-- Modelled from the spec: the decoder reads one value, a quoted string or
an integer literal. -/
def parseValue (chars : List Char) : Option (JsonValue × List Char) :=
  match chars with
  | [] => none
  | ch :: rest =>
    if ch = Char.ofNat 34 then
      match parseStringBody rest with
      | some (body, after) => some (JsonValue.str (String.mk body), after)
      | none => none
    else
      match parseInt chars with
      | some (n, after) => some (JsonValue.num n, after)
      | none => none

/-- Modelled from the spec: the decoder reads one member, `"key":value`. -/
def parseMember (chars : List Char) : Option ((String × JsonValue) × List Char) :=
  match chars with
  | [] => none
  | ch :: rest =>
    if ch = Char.ofNat 34 then
      match parseStringBody rest with
      | some (key, after) =>
        match after with
        | [] => none
        | colon :: after2 =>
          if colon = ':' then
            match parseValue after2 with
            | some (v, after3) => some ((String.mk key, v), after3)
            | none => none
          else none
      | none => none
    else none

/-- Modelled from the spec: the decoder reads the members of an object up to
its closing brace, which must end the text.  Each member takes at least one
character, so `fuel` members at most are read. -/
def parseMembers : Nat → List Char → Option (List (String × JsonValue))
  | 0, _ => none
  | fuel + 1, chars =>
    match parseMember chars with
    | none => none
    | some (m, after) =>
      match after with
      | [] => none
      | sep :: after2 =>
        if sep = Char.ofNat 125 then
          if after2 = [] then some [m] else none
        else if sep = ',' then
          match parseMembers fuel after2 with
          | some ms => some (m :: ms)
          | none => none
        else none

/-- Modelled from the spec: the decoder reads a compact JSON object whose
values are integers and strings. -/
def parseObject (chars : List Char) : Option (List (String × JsonValue)) :=
  match chars with
  | [] => none
  | open1 :: rest =>
    if open1 = Char.ofNat 123 then
      if rest = [Char.ofNat 125] then some [] else parseMembers rest.length rest
    else none

/-- Modelled from the spec: `json.Unmarshal(data, &output)` on the text that
structured mode emits: the text is read as an object and the object is
decoded by the keys of the struct tags. -/
def Unmarshal (text : String) : Option OutputData :=
  match parseObject text.data with
  | some obj => unmarshalObject obj
  | none => none

/-- Go: the rendering `p` of `Run`, the JSON text when `s.Json` is set and the
seven lines of the template otherwise. -/
def render (s : StatusCmd) (output : OutputData) : String :=
  if s.Json then
    Marshal output
  else
    Sprintf
      "time: %d\nwidth: %d\nheight: %d\nsignal: %s\nframeid: %d\ncolorspace: %s\nformat: %s\n"
      [Arg.int output.Time, Arg.int output.Width, Arg.int output.Height,
       Arg.str output.Signal, Arg.int output.FrameID, Arg.str output.Colorspace,
       Arg.str output.Format]

/-- What `Run` does to the world outside, in the order it does it. -/
inductive Event where
  | stdout (text : String)
  | writeFile (filename : String) (data : String) (perm : Nat)
  | sleep (nanoseconds : Int)
  deriving DecidableEq, Repr

/-- Where the poller stands: inside the loop, past it (`Run` returned `nil`),
ended by `os.Exit`, or ended by a panic of the strategy. -/
inductive Phase where
  | reading
  | done
  | exited (code : Int)
  | crashed
  deriving DecidableEq, Repr

/-- The state of a run of `Run`: the collaborators, the readings the clock
will give, the events so far and the phase. -/
structure Poller where
  ctx : Context := {}
  clock : List Int := []
  events : List Event := []
  phase : Phase := Phase.reading
  deriving DecidableEq, Repr

/-- Modelled from the spec: the clock, `time.Now().UnixMilli()`.  Its readings
are a script; a script that has run out reads 0. -/
def UnixMilli (clock : List Int) : Int × List Int :=
  match clock with
  | [] => (0, [])
  | t :: rest => (t, rest)

/-- Go: a product of two `int64`, which wraps around. -/
def wrapInt64 (x : Int) : Int :=
  (x + 2 ^ 63) % 2 ^ 64 - 2 ^ 63

/-- Go: `time.Microsecond`, in nanoseconds. -/
def Microsecond : Int := 1000

/-- Go: `time.Millisecond`, in nanoseconds. -/
def Millisecond : Int := 1000000

/-- Go: `time.Duration(s.Loop) * time.Millisecond`, the argument of
`time.Sleep`, in nanoseconds. -/
def sleepDuration (s : StatusCmd) : Int :=
  wrapInt64 (s.Loop * Millisecond)

/-- Go: the sink of `Run`, `fmt.Print(p)` when no file name is given and
`renameio.WriteFile(s.Filename, []byte(p), 0644)` otherwise. -/
def emit (s : StatusCmd) (p : String) : Event :=
  if s.Filename = "" then Event.stdout p else Event.writeFile s.Filename p 0o644

/-- Go: the body of the loop `for next` of `StatusCmd.Run`, one poll cycle.
A poller that is not reading stays as it is. -/
def cycle (s : StatusCmd) (st : Poller) : Poller :=
  match st.phase with
  | Phase.reading =>
    -- output := &OutputData{}; output.Time = time.Now().UnixMilli()
    let now := (UnixMilli st.clock).1
    let clock := (UnixMilli st.clock).2
    let output : OutputData := { ({} : OutputData) with Time := now }
    let r := readRegion s.Region st.ctx output
    match r.outcome with
    | Outcome.panicked =>
      { ctx := r.ctx, clock := clock, events := st.events, phase := Phase.crashed }
    | Outcome.returned false =>
      if s.Loop = 0 then
        { ctx := r.ctx, clock := clock,
          events := st.events ++ [Event.stdout "Read nothing from RAM, exiting\n"],
          phase := Phase.exited 1 }
      else
        { ctx := r.ctx, clock := clock,
          events := st.events ++ [Event.sleep (sleepDuration s)],
          phase := Phase.reading }
    | Outcome.returned true =>
      let p := render s r.output
      if s.Loop = 0 then
        { ctx := r.ctx, clock := clock, events := st.events ++ [emit s p],
          phase := Phase.done }
      else
        { ctx := r.ctx, clock := clock,
          events := st.events ++ [emit s p, Event.sleep (sleepDuration s)],
          phase := Phase.reading }
  | _ => st

/-- Go: `func (s *StatusCmd) Run(c *Context) error`, run for at most `fuel`
cycles. -/
def Run (s : StatusCmd) : Nat → Poller → Poller
  | 0, st => st
  | fuel + 1, st =>
    match st.phase with
    | Phase.reading => Run s fuel (cycle s st)
    | _ => st

/-- The events that hand a text to the sink: a print to standard output or a
write of the file. -/
def Event.isOutput : Event → Bool
  | Event.stdout _ => true
  | Event.writeFile _ _ _ => true
  | Event.sleep _ => false

/-- The renderings the loop is to hand to the sink in its first `n` cycles,
in the words of the specification: cycle by cycle, a fresh zero-valued
snapshot is stamped with the time of the cycle and given to the strategy; a
cycle that succeeds contributes the rendering of its snapshot, a cycle that
fails contributes nothing, and a strategy that panics ends the process. -/
def loopRenderings (s : StatusCmd) : Nat → Context → List Int → List Event
  | 0, _, _ => []
  | n + 1, ctx, clock =>
    let r := readRegion s.Region ctx { Time := (UnixMilli clock).1 }
    match r.outcome with
    | Outcome.returned true =>
      emit s (render s r.output) :: loopRenderings s n r.ctx (UnixMilli clock).2
    | Outcome.returned false => loopRenderings s n r.ctx (UnixMilli clock).2
    | Outcome.panicked => []

/-! Reading the collaborator script and indexing a buffer. -/

theorem byteAt_of_lt (buf : List Byte) (i : Nat) (h : i < buf.length) :
    byteAt buf i = some ((buf[i]).val : Int) := by
  unfold byteAt
  rw [List.get?_eq_get h]
  rfl

theorem byteAt_nil (i : Nat) : byteAt [] i = none := rfl

theorem byteAt_take_one (buf : List Byte) : byteAt (buf.take 1) 0 = byteAt buf 0 := by
  cases buf <;> rfl

theorem readmem_cons (c : Context) (buf : List Byte) (rest : List (List Byte)) (r : Region)
    (amount : Int) (h : c.reads = buf :: rest) :
    readmem c r amount =
      (buf, { c with reads := rest, log := c.log ++ [Call.readmem r amount] }) := by
  unfold readmem
  rw [h]

/-- The murderous strategy on a buffer of at least 14 bytes: it returns true
with the three decoded fields written and the other fields as they were. -/
theorem readMurderous_eq (c : Context) (output : OutputData) (buf : List Byte)
    (rest : List (List Byte)) (hlen : 14 ≤ buf.length) (hread : c.reads = buf :: rest) :
    readMurderous c output =
      ⟨Outcome.returned true,
        { output with
          Width := ((buf[5]).val : Int) * 256 + ((buf[4]).val : Int)
          Height :=
            if ((buf[0]).val : Int) = 15 then
              2 * (((buf[13]).val : Int) * 256 + ((buf[12]).val : Int))
            else ((buf[13]).val : Int) * 256 + ((buf[12]).val : Int)
          Signal := if ((buf[0]).val : Int) > 0 ∧ ((buf[0]).val : Int) ≠ 8 then "yes" else "no" },
        { c with
          reads := rest
          log := c.log ++ [Call.readmem { Region := "RAM", Addr := 0x0000e180 } 16] }⟩ := by
  have h0 : byteAt buf 0 = some ((buf[0]).val : Int) := byteAt_of_lt buf 0 (by omega)
  have h4 := byteAt_of_lt buf 4 (by omega)
  have h5 := byteAt_of_lt buf 5 (by omega)
  have h12 := byteAt_of_lt buf 12 (by omega)
  have h13 := byteAt_of_lt buf 13 (by omega)
  have hne : ¬ buf.length = 0 := by omega
  simp only [readMurderous, readmem_cons c buf rest _ _ hread, byteAt_take_one, h0, h4, h5,
    h12, h13, hne, if_false]
  split_ifs <;> rfl

/-- C1: for every 16-byte buffer returned to the murderous strategy,
`readMurderous` returns true with width `buf[4] + 256*buf[5]`; the height is
`2 * (buf[12] + 256*buf[13])` when the mode byte `buf[0]` is 15, and
`buf[12] + 256*buf[13]` when the mode byte is 0, 7 or 8. -/
theorem readMurderous_dimensions (c : Context) (output : OutputData) (buf : List Byte)
    (rest : List (List Byte)) (hlen : buf.length = 16) (hread : c.reads = buf :: rest) :
    (readMurderous c output).outcome = Outcome.returned true ∧
    (readMurderous c output).output.Width = ((buf[4]).val : Int) + 256 * ((buf[5]).val : Int) ∧
    ((buf[0]).val = 15 → (readMurderous c output).output.Height
        = 2 * (((buf[12]).val : Int) + 256 * ((buf[13]).val : Int))) ∧
    ((buf[0]).val = 0 ∨ (buf[0]).val = 7 ∨ (buf[0]).val = 8 →
      (readMurderous c output).output.Height
        = ((buf[12]).val : Int) + 256 * ((buf[13]).val : Int)) := by
  rw [readMurderous_eq c output buf rest (by omega) hread]
  refine ⟨rfl, ?_, ?_, ?_⟩
  · show ((buf[5]).val : Int) * 256 + ((buf[4]).val : Int) = _
    ring
  · intro h15
    have h : ((buf[0]).val : Int) = 15 := by omega
    show (if ((buf[0]).val : Int) = 15 then _ else _) = _
    rw [if_pos h]
    ring
  · intro h078
    have h : ¬ ((buf[0]).val : Int) = 15 := by omega
    show (if ((buf[0]).val : Int) = 15 then _ else _) = _
    rw [if_neg h]
    ring

/-- Witness of C1: an interlaced 1920x540 buffer decodes to 1920x1080. -/
theorem readMurderous_dimensions_witness :
    (readMurderous { reads := [[15, 0, 0, 0, 0x80, 7, 0, 0, 0, 0, 0, 0, 0x1c, 2, 0, 0]] }
        {}).outcome = Outcome.returned true ∧
    (readMurderous { reads := [[15, 0, 0, 0, 0x80, 7, 0, 0, 0, 0, 0, 0, 0x1c, 2, 0, 0]] }
        {}).output.Width = 1920 ∧
    (readMurderous { reads := [[15, 0, 0, 0, 0x80, 7, 0, 0, 0, 0, 0, 0, 0x1c, 2, 0, 0]] }
        {}).output.Height = 1080 := by
  have h := readMurderous_dimensions
    { reads := [[15, 0, 0, 0, 0x80, 7, 0, 0, 0, 0, 0, 0, 0x1c, 2, 0, 0]] } {}
    [15, 0, 0, 0, 0x80, 7, 0, 0, 0, 0, 0, 0, 0x1c, 2, 0, 0] [] rfl rfl
  exact ⟨h.1, h.2.1, h.2.2.1 rfl⟩

/-- C2: for every 16-byte murderous buffer and every mode byte `buf[0]`,
`readMurderous` sets signal to "no" if and only if the mode byte is 0 or 8,
and to "yes" for every other mode byte. -/
theorem readMurderous_signal (c : Context) (output : OutputData) (buf : List Byte)
    (rest : List (List Byte)) (hlen : buf.length = 16) (hread : c.reads = buf :: rest) :
    ((readMurderous c output).output.Signal = "no" ↔ ((buf[0]).val = 0 ∨ (buf[0]).val = 8)) ∧
    (¬ ((buf[0]).val = 0 ∨ (buf[0]).val = 8) → (readMurderous c output).output.Signal = "yes") := by
  rw [readMurderous_eq c output buf rest (by omega) hread]
  show ((if ((buf[0]).val : Int) > 0 ∧ ((buf[0]).val : Int) ≠ 8 then "yes" else "no") = "no" ↔ _)
    ∧ (_ → (if ((buf[0]).val : Int) > 0 ∧ ((buf[0]).val : Int) ≠ 8 then "yes" else "no") = "yes")
  by_cases h : ((buf[0]).val : Int) > 0 ∧ ((buf[0]).val : Int) ≠ 8
  · rw [if_pos h]
    refine ⟨⟨fun hc => absurd hc (by decide), fun hc => ?_⟩, fun _ => rfl⟩
    omega
  · rw [if_neg h]
    refine ⟨⟨fun _ => ?_, fun _ => rfl⟩, fun hc => ?_⟩
    · omega
    · omega

/-- Witness of C2: mode byte 8 (no signal after a non-interlaced one) reads
as "no", mode byte 7 as "yes". -/
theorem readMurderous_signal_witness :
    (readMurderous { reads := [[8, 0, 0, 0, 0x80, 7, 0, 0, 0, 0, 0, 0, 0x38, 4, 0, 0]] }
        {}).output.Signal = "no" ∧
    (readMurderous { reads := [[7, 0, 0, 0, 0x80, 7, 0, 0, 0, 0, 0, 0, 0x38, 4, 0, 0]] }
        {}).output.Signal = "yes" :=
  ⟨(readMurderous_signal { reads := [[8, 0, 0, 0, 0x80, 7, 0, 0, 0, 0, 0, 0, 0x38, 4, 0, 0]] } {}
      [8, 0, 0, 0, 0x80, 7, 0, 0, 0, 0, 0, 0, 0x38, 4, 0, 0] [] rfl rfl).1.2 (Or.inr rfl),
   (readMurderous_signal { reads := [[7, 0, 0, 0, 0x80, 7, 0, 0, 0, 0, 0, 0, 0x38, 4, 0, 0]] } {}
      [7, 0, 0, 0, 0x80, 7, 0, 0, 0, 0, 0, 0, 0x38, 4, 0, 0] [] rfl rfl).2 (by decide)⟩

theorem readmem_mk_cons (buf : List Byte) (rest : List (List Byte))
    (execs : List (Option PatchExecFuncResponse)) (log : List Call) (r : Region) (amount : Int) :
    readmem ⟨buf :: rest, execs, log⟩ r amount
      = (buf, ⟨rest, execs, log ++ [Call.readmem r amount]⟩) := rfl

theorem readmem_mk_nil (execs : List (Option PatchExecFuncResponse)) (log : List Call)
    (r : Region) (amount : Int) :
    readmem ⟨[], execs, log⟩ r amount = ([], ⟨[], execs, log ++ [Call.readmem r amount]⟩) := rfl

/-- The flaky strategy when all four reads answer: it returns true, with
width, height, signal and colorspace written, and format written for the
codes 0 and 2 only. -/
theorem readFlaky_eq (c : Context) (output : OutputData) (d s cs fm : List Byte)
    (rest : List (List Byte)) (hd : 4 ≤ d.length) (hs : 1 ≤ s.length) (hcs : 1 ≤ cs.length)
    (hfm : 1 ≤ fm.length) (hread : c.reads = d :: s :: cs :: fm :: rest) :
    readFlaky c output =
      ⟨Outcome.returned true,
        { Width := ((d[1]).val : Int) * 256 + ((d[0]).val : Int)
          Height := ((d[3]).val : Int) * 256 + ((d[2]).val : Int)
          Signal := if ((s[0]).val : Int) = 0 then "yes" else "no"
          Time := output.Time
          FrameID := output.FrameID
          Colorspace :=
            if ((cs[0]).val : Int) = 0 then "RGB"
            else if ((cs[0]).val : Int) = 1 then "Y422" else "Y444"
          Format :=
            if ((fm[0]).val : Int) = 0 then "DVI"
            else if ((fm[0]).val : Int) = 2 then "HDMI" else output.Format },
        { reads := rest
          execs := c.execs
          log := c.log ++ [Call.readmem { Region := "RAM", Addr := 0x0000f660 } 4,
            Call.readmem { Region := "RAM", Addr := 0x0000f6e9 } 1,
            Call.readmem { Region := "RAM", Addr := 0x00001c3a } 1,
            Call.readmem { Region := "RAM", Addr := 0x00001c41 } 1] }⟩ := by
  obtain ⟨reads, execs, log⟩ := c
  simp only at hread
  subst hread
  have h0 := byteAt_of_lt d 0 (by omega)
  have h1 := byteAt_of_lt d 1 (by omega)
  have h2 := byteAt_of_lt d 2 (by omega)
  have h3 := byteAt_of_lt d 3 (by omega)
  have hs0 := byteAt_of_lt s 0 (by omega)
  have hcs0 := byteAt_of_lt cs 0 (by omega)
  have hfm0 := byteAt_of_lt fm 0 (by omega)
  have hdne : ¬ d.length = 0 := by omega
  have hsne : ¬ s.length = 0 := by omega
  simp only [readFlaky, readmem_mk_cons, h0, h1, h2, h3, hs0, hcs0, hfm0, hdne, hsne, if_false,
    List.append_assoc, List.singleton_append]
  split_ifs <;> rfl

theorem length_pos_of_ne_nil (buf : List Byte) (h : buf ≠ []) : 1 ≤ buf.length :=
  List.length_pos.mpr h

/-- The flaky strategy when its third read (the colorspace code) comes back
empty: `buf[0]` is out of range and the run panics, after width, height and
signal were written. -/
theorem readFlaky_third_empty (c : Context) (output : OutputData) (d s : List Byte)
    (rest : List (List Byte)) (hd : 4 ≤ d.length) (hs : 1 ≤ s.length)
    (hread : c.reads = d :: s :: [] :: rest) :
    (readFlaky c output).outcome = Outcome.panicked ∧
    (readFlaky c output).output =
      { output with
        Width := ((d[1]).val : Int) * 256 + ((d[0]).val : Int)
        Height := ((d[3]).val : Int) * 256 + ((d[2]).val : Int)
        Signal := if ((s[0]).val : Int) = 0 then "yes" else "no" } := by
  obtain ⟨reads, execs, log⟩ := c
  simp only at hread
  subst hread
  have h0 := byteAt_of_lt d 0 (by omega)
  have h1 := byteAt_of_lt d 1 (by omega)
  have h2 := byteAt_of_lt d 2 (by omega)
  have h3 := byteAt_of_lt d 3 (by omega)
  have hs0 := byteAt_of_lt s 0 (by omega)
  have hdne : ¬ d.length = 0 := by omega
  have hsne : ¬ s.length = 0 := by omega
  simp only [readFlaky, readmem_mk_cons, h0, h1, h2, h3, hs0, hdne, hsne, if_false, byteAt_nil]
  split_ifs <;> exact ⟨trivial, rfl⟩

/-- The flaky strategy when its fourth read (the format code) is unavailable,
the script having run out or answering with the empty buffer: the run panics,
after width, height, signal and colorspace were written. -/
theorem readFlaky_fourth_empty (c : Context) (output : OutputData) (d s cs : List Byte)
    (rest : List (List Byte)) (hd : 4 ≤ d.length) (hs : 1 ≤ s.length) (hcs : 1 ≤ cs.length)
    (hrest : rest = [] ∨ ∃ rest2, rest = [] :: rest2)
    (hread : c.reads = d :: s :: cs :: rest) :
    (readFlaky c output).outcome = Outcome.panicked ∧
    (readFlaky c output).output =
      { output with
        Width := ((d[1]).val : Int) * 256 + ((d[0]).val : Int)
        Height := ((d[3]).val : Int) * 256 + ((d[2]).val : Int)
        Signal := if ((s[0]).val : Int) = 0 then "yes" else "no"
        Colorspace :=
          if ((cs[0]).val : Int) = 0 then "RGB"
          else if ((cs[0]).val : Int) = 1 then "Y422" else "Y444" } := by
  obtain ⟨reads, execs, log⟩ := c
  simp only at hread
  subst hread
  have h0 := byteAt_of_lt d 0 (by omega)
  have h1 := byteAt_of_lt d 1 (by omega)
  have h2 := byteAt_of_lt d 2 (by omega)
  have h3 := byteAt_of_lt d 3 (by omega)
  have hs0 := byteAt_of_lt s 0 (by omega)
  have hcs0 := byteAt_of_lt cs 0 (by omega)
  have hdne : ¬ d.length = 0 := by omega
  have hsne : ¬ s.length = 0 := by omega
  rcases hrest with rfl | ⟨rest2, rfl⟩
  · simp only [readFlaky, readmem_mk_cons, readmem_mk_nil, h0, h1, h2, h3, hs0, hcs0, hdne,
      hsne, if_false, byteAt_nil]
    split_ifs <;> exact ⟨trivial, rfl⟩
  · simp only [readFlaky, readmem_mk_cons, h0, h1, h2, h3, hs0, hcs0, hdne, hsne, if_false,
      byteAt_nil]
    split_ifs <;> exact ⟨trivial, rfl⟩

/-- The flaky strategy when its first read comes back empty: it returns false
and the snapshot is as it was. -/
theorem readFlaky_first_empty (c : Context) (output : OutputData) (rest : List (List Byte))
    (hread : c.reads = [] :: rest) :
    (readFlaky c output).outcome = Outcome.returned false ∧
    (readFlaky c output).output = output := by
  obtain ⟨reads, execs, log⟩ := c
  simp only at hread
  subst hread
  exact ⟨rfl, rfl⟩

/-- The flaky strategy when its second read comes back empty: it returns
false with width and height written and the other fields as they were. -/
theorem readFlaky_second_empty (c : Context) (output : OutputData) (d : List Byte)
    (rest : List (List Byte)) (hd : 4 ≤ d.length) (hread : c.reads = d :: [] :: rest) :
    (readFlaky c output).outcome = Outcome.returned false ∧
    (readFlaky c output).output =
      { output with
        Width := ((d[1]).val : Int) * 256 + ((d[0]).val : Int)
        Height := ((d[3]).val : Int) * 256 + ((d[2]).val : Int) } := by
  obtain ⟨reads, execs, log⟩ := c
  simp only at hread
  subst hread
  have h0 := byteAt_of_lt d 0 (by omega)
  have h1 := byteAt_of_lt d 1 (by omega)
  have h2 := byteAt_of_lt d 2 (by omega)
  have h3 := byteAt_of_lt d 3 (by omega)
  have hdne : ¬ d.length = 0 := by omega
  simp only [readFlaky, readmem_mk_cons, h0, h1, h2, h3, hdne, if_false, List.length_nil,
    if_true]
  exact ⟨trivial, rfl⟩

/-- The murderous strategy when its read comes back empty: it returns false
and the snapshot is as it was. -/
theorem readMurderous_empty (c : Context) (output : OutputData) (rest : List (List Byte))
    (hread : c.reads = [] :: rest) :
    (readMurderous c output).outcome = Outcome.returned false ∧
    (readMurderous c output).output = output := by
  obtain ⟨reads, execs, log⟩ := c
  simp only at hread
  subst hread
  exact ⟨rfl, rfl⟩

/-- The unknown strategy when its first read comes back empty: it returns
false and the snapshot is as it was. -/
theorem readUnknown_first_empty (c : Context) (output : OutputData) (rest : List (List Byte))
    (hread : c.reads = [] :: rest) :
    (readUnknown c output).outcome = Outcome.returned false ∧
    (readUnknown c output).output = output := by
  obtain ⟨reads, execs, log⟩ := c
  simp only at hread
  subst hread
  exact ⟨rfl, rfl⟩

/-- The unknown strategy when its second read comes back empty: it returns
false with width and height written and the other fields as they were. -/
theorem readUnknown_second_empty (c : Context) (output : OutputData) (e : List Byte)
    (rest : List (List Byte)) (he : 8 ≤ e.length) (hread : c.reads = e :: [] :: rest) :
    (readUnknown c output).outcome = Outcome.returned false ∧
    (readUnknown c output).output =
      { output with
        Width := ((e[1]).val : Int) * 256 + ((e[0]).val : Int)
        Height := ((e[7]).val : Int) * 256 + ((e[6]).val : Int) } := by
  obtain ⟨reads, execs, log⟩ := c
  simp only at hread
  subst hread
  have h0 := byteAt_of_lt e 0 (by omega)
  have h1 := byteAt_of_lt e 1 (by omega)
  have h6 := byteAt_of_lt e 6 (by omega)
  have h7 := byteAt_of_lt e 7 (by omega)
  have hene : ¬ e.length = 0 := by omega
  simp only [readUnknown, readmem_mk_cons, h0, h1, h6, h7, hene, if_false, List.length_nil,
    if_true]
  exact ⟨trivial, rfl⟩

/-- The bertold strategy when the procedure call errors: it returns false and
the snapshot is as it was. -/
theorem readBertold_error (c : Context) (output : OutputData) (beforescaler : Bool)
    (rest : List (Option PatchExecFuncResponse)) (hexec : c.execs = none :: rest) :
    (readBertold c output beforescaler).outcome = Outcome.returned false ∧
    (readBertold c output beforescaler).output = output := by
  obtain ⟨reads, execs, log⟩ := c
  simp only at hexec
  subst hexec
  exact ⟨rfl, rfl⟩

/-- C3, at the input where the code departs from it: the third read of the
flaky strategy (the colorspace code) has no length check, and neither has the
fourth (the format code).  With the first two reads answered and the third
one empty, `readFlaky` indexes the empty buffer and panics instead of
returning false; the same happens when the fourth read is the empty one. -/
theorem readFlaky_empty_code_read_panics :
    (readFlaky { reads := [[0x80, 0x07, 0x38, 0x04], [0], []] } {}).outcome
      = Outcome.panicked ∧
    (readFlaky { reads := [[0x80, 0x07, 0x38, 0x04], [0], [1], []] } {}).outcome
      = Outcome.panicked := by
  decide

theorem byte_cast_eq_zero (b : Byte) : ((b.val : Int) = 0) ↔ b = 0 := by
  rw [Fin.ext_iff]
  exact Int.natCast_eq_zero

theorem byte_cast_eq_one (b : Byte) : ((b.val : Int) = 1) ↔ b = 1 := by
  rw [Fin.ext_iff]
  show ((b.val : Int) = ((1 : Nat) : Int)) ↔ b.val = 1
  exact Int.ofNat_inj

theorem byte_cast_eq_two (b : Byte) : ((b.val : Int) = 2) ↔ b = 2 := by
  rw [Fin.ext_iff]
  show ((b.val : Int) = ((2 : Nat) : Int)) ↔ b.val = 2
  exact Int.ofNat_inj

/-- The colorspace the flaky strategy leaves in the snapshot once its third
read has answered with a buffer starting with `b`, whatever the fourth read
answers. -/
theorem flaky_colorspace_state (c : Context) (output : OutputData) (d s : List Byte) (b : Byte)
    (t : List Byte) (rest : List (List Byte)) (hd : 4 ≤ d.length) (hs : 1 ≤ s.length)
    (hread : c.reads = d :: s :: (b :: t) :: rest) :
    (readFlaky c output).output.Colorspace =
      if (b.val : Int) = 0 then "RGB" else if (b.val : Int) = 1 then "Y422" else "Y444" := by
  rcases rest with _ | ⟨fm, rest2⟩
  · rw [(readFlaky_fourth_empty c output d s (b :: t) [] hd hs (by simp) (Or.inl rfl) hread).2]
    rfl
  · rcases fm with _ | ⟨f, ft⟩
    · rw [(readFlaky_fourth_empty c output d s (b :: t) ([] :: rest2) hd hs (by simp)
        (Or.inr ⟨rest2, rfl⟩) hread).2]
      rfl
    · rw [readFlaky_eq c output d s (b :: t) (f :: ft) rest2 hd hs (by simp) (by simp) hread]
      rfl

/-- C4: for every value `b` of the colorspace code byte (third read of the
flaky strategy), whenever the two preceding reads succeed, `readFlaky` sets
colorspace to "RGB" when `b = 0`, to "Y422" when `b = 1` and to "Y444" for
every other `b`; when the fourth read answers too, it returns true. -/
theorem readFlaky_colorspace (c : Context) (output : OutputData) (d s : List Byte) (b : Byte)
    (t : List Byte) (rest : List (List Byte)) (hd : 4 ≤ d.length) (hs : s ≠ [])
    (hread : c.reads = d :: s :: (b :: t) :: rest) :
    (b = 0 → (readFlaky c output).output.Colorspace = "RGB") ∧
    (b = 1 → (readFlaky c output).output.Colorspace = "Y422") ∧
    (b ≠ 0 → b ≠ 1 → (readFlaky c output).output.Colorspace = "Y444") ∧
    (∀ fm rest2, fm ≠ [] → rest = fm :: rest2 →
      (readFlaky c output).outcome = Outcome.returned true) := by
  have hs1 := length_pos_of_ne_nil s hs
  rw [flaky_colorspace_state c output d s b t rest hd hs1 hread]
  refine ⟨?_, ?_, ?_, ?_⟩
  · intro h0
    rw [if_pos ((byte_cast_eq_zero b).mpr h0)]
  · intro h1
    have hne : ¬ (b.val : Int) = 0 := by
      rw [byte_cast_eq_zero, h1]
      decide
    rw [if_neg hne, if_pos ((byte_cast_eq_one b).mpr h1)]
  · intro h0 h1
    rw [if_neg (mt (byte_cast_eq_zero b).mp h0), if_neg (mt (byte_cast_eq_one b).mp h1)]
  · intro fm rest2 hfm hrest
    subst hrest
    rw [readFlaky_eq c output d s (b :: t) fm rest2 hd hs1 (by simp)
      (length_pos_of_ne_nil fm hfm) hread]

/-- Witness of C4: the colorspace code 1 reads as "Y422" and the code 7 as
"Y444". -/
theorem readFlaky_colorspace_witness :
    (readFlaky { reads := [[0x80, 0x07, 0x38, 0x04], [0], [1], [2]] } {}).output.Colorspace
      = "Y422" ∧
    (readFlaky { reads := [[0x80, 0x07, 0x38, 0x04], [0], [7], [2]] } {}).output.Colorspace
      = "Y444" ∧
    (readFlaky { reads := [[0x80, 0x07, 0x38, 0x04], [0], [7], [2]] } {}).outcome
      = Outcome.returned true :=
  ⟨(readFlaky_colorspace { reads := [[0x80, 0x07, 0x38, 0x04], [0], [1], [2]] } {}
      [0x80, 0x07, 0x38, 0x04] [0] 1 [] [[2]] (by decide) (by decide) rfl).2.1 rfl,
   (readFlaky_colorspace { reads := [[0x80, 0x07, 0x38, 0x04], [0], [7], [2]] } {}
      [0x80, 0x07, 0x38, 0x04] [0] 7 [] [[2]] (by decide) (by decide) rfl).2.2.1
      (by decide) (by decide),
   (readFlaky_colorspace { reads := [[0x80, 0x07, 0x38, 0x04], [0], [7], [2]] } {}
      [0x80, 0x07, 0x38, 0x04] [0] 7 [] [[2]] (by decide) (by decide) rfl).2.2.2
      [2] [] (by decide) rfl⟩

/-- C5: for every value `b` of the format code byte (fourth read of the flaky
strategy), on a fresh snapshot (all fields zero but the time stamp `t`) and
with all reads answered, `readFlaky` returns true and the format is "DVI" when
`b = 0`, "HDMI" when `b = 2` and the empty string for every other `b`. -/
theorem readFlaky_format (c : Context) (t : Int) (d s cs : List Byte) (b : Byte)
    (tl : List Byte) (rest : List (List Byte)) (hd : 4 ≤ d.length) (hs : s ≠ [])
    (hcs : cs ≠ []) (hread : c.reads = d :: s :: cs :: (b :: tl) :: rest) :
    (readFlaky c { Time := t }).outcome = Outcome.returned true ∧
    (b = 0 → (readFlaky c { Time := t }).output.Format = "DVI") ∧
    (b = 2 → (readFlaky c { Time := t }).output.Format = "HDMI") ∧
    (b ≠ 0 → b ≠ 2 → (readFlaky c { Time := t }).output.Format = "") := by
  rw [readFlaky_eq c { Time := t } d s cs (b :: tl) rest hd (length_pos_of_ne_nil s hs)
    (length_pos_of_ne_nil cs hcs) (by simp) hread]
  refine ⟨rfl, ?_, ?_, ?_⟩
  · intro h0
    show (if (b.val : Int) = 0 then "DVI" else _) = _
    rw [if_pos ((byte_cast_eq_zero b).mpr h0)]
  · intro h2
    have hne : ¬ (b.val : Int) = 0 := by
      rw [byte_cast_eq_zero, h2]
      decide
    show (if (b.val : Int) = 0 then "DVI" else if (b.val : Int) = 2 then "HDMI" else _) = _
    rw [if_neg hne, if_pos ((byte_cast_eq_two b).mpr h2)]
  · intro h0 h2
    show (if (b.val : Int) = 0 then "DVI" else if (b.val : Int) = 2 then "HDMI" else "") = _
    rw [if_neg (mt (byte_cast_eq_zero b).mp h0), if_neg (mt (byte_cast_eq_two b).mp h2)]

/-- Witness of C5: on the zero snapshot the format code 1 is not recognised;
the read returns true and the format stays empty. -/
theorem readFlaky_format_witness :
    (readFlaky { reads := [[0x80, 0x07, 0x38, 0x04], [0], [0], [1]] } {}).outcome
      = Outcome.returned true ∧
    (readFlaky { reads := [[0x80, 0x07, 0x38, 0x04], [0], [0], [1]] } {}).output.Format = "" :=
  ⟨(readFlaky_format { reads := [[0x80, 0x07, 0x38, 0x04], [0], [0], [1]] } 0
      [0x80, 0x07, 0x38, 0x04] [0] [0] 1 [] [] (by decide) (by decide) (by decide) rfl).1,
   (readFlaky_format { reads := [[0x80, 0x07, 0x38, 0x04], [0], [0], [1]] } 0
      [0x80, 0x07, 0x38, 0x04] [0] [0] 1 [] [] (by decide) (by decide) (by decide) rfl).2.2.2
      (by decide) (by decide)⟩

/-- The unknown strategy when both reads answer: it returns true with width,
height and signal written and the other fields as they were. -/
theorem readUnknown_eq (c : Context) (output : OutputData) (e fl : List Byte)
    (rest : List (List Byte)) (he : 8 ≤ e.length) (hfl : 1 ≤ fl.length)
    (hread : c.reads = e :: fl :: rest) :
    readUnknown c output =
      ⟨Outcome.returned true,
        { Width := ((e[1]).val : Int) * 256 + ((e[0]).val : Int)
          Height := ((e[7]).val : Int) * 256 + ((e[6]).val : Int)
          Signal := if ((fl[0]).val : Int) = 0 then "yes" else "no"
          Time := output.Time
          FrameID := output.FrameID
          Colorspace := output.Colorspace
          Format := output.Format },
        { reads := rest
          execs := c.execs
          log := c.log ++ [Call.readmem { Region := "RAM", Addr := 0x0000f606 } 8,
            Call.readmem { Region := "RAM", Addr := 0x0000f6e9 } 1] }⟩ := by
  obtain ⟨reads, execs, log⟩ := c
  simp only at hread
  subst hread
  have h0 := byteAt_of_lt e 0 (by omega)
  have h1 := byteAt_of_lt e 1 (by omega)
  have h6 := byteAt_of_lt e 6 (by omega)
  have h7 := byteAt_of_lt e 7 (by omega)
  have hf0 := byteAt_of_lt fl 0 (by omega)
  have hene : ¬ e.length = 0 := by omega
  have hfne : ¬ fl.length = 0 := by omega
  simp only [readUnknown, readmem_mk_cons, h0, h1, h6, h7, hf0, hene, hfne, if_false,
    List.append_assoc, List.singleton_append]
  split_ifs <;> rfl

/-- C6: for every 4-byte dimension buffer `[b0, b1, b2, b3]` answered to the
first read of the flaky strategy, the later reads answering too, `readFlaky`
returns true with width `b0 + 256*b1` and height `b2 + 256*b3`; the buffer
`[0x80, 0x07, 0x38, 0x04]` decodes to width 1920 and height 1080. -/
theorem readFlaky_dimensions (c : Context) (output : OutputData) (b0 b1 b2 b3 : Byte)
    (s cs fm : List Byte) (rest : List (List Byte)) (hs : s ≠ []) (hcs : cs ≠ [])
    (hfm : fm ≠ []) (hread : c.reads = [b0, b1, b2, b3] :: s :: cs :: fm :: rest) :
    (readFlaky c output).outcome = Outcome.returned true ∧
    (readFlaky c output).output.Width = (b0.val : Int) + 256 * (b1.val : Int) ∧
    (readFlaky c output).output.Height = (b2.val : Int) + 256 * (b3.val : Int) ∧
    ([b0, b1, b2, b3] = [0x80, 0x07, 0x38, 0x04] →
      (readFlaky c output).output.Width = 1920 ∧ (readFlaky c output).output.Height = 1080) := by
  have key := readFlaky_eq c output [b0, b1, b2, b3] s cs fm rest (by simp)
    (length_pos_of_ne_nil s hs) (length_pos_of_ne_nil cs hcs) (length_pos_of_ne_nil fm hfm) hread
  have hw : (readFlaky c output).output.Width = (b0.val : Int) + 256 * (b1.val : Int) := by
    rw [key]
    show (b1.val : Int) * 256 + (b0.val : Int) = _
    ring
  have hh : (readFlaky c output).output.Height = (b2.val : Int) + 256 * (b3.val : Int) := by
    rw [key]
    show (b3.val : Int) * 256 + (b2.val : Int) = _
    ring
  refine ⟨by rw [key], hw, hh, ?_⟩
  intro hb
  simp only [List.cons.injEq, and_true] at hb
  obtain ⟨h0, h1, h2, h3⟩ := hb
  rw [hw, hh, h0, h1, h2, h3]
  exact ⟨by decide, by decide⟩

/-- Witness of C6: the literal buffer of the specification. -/
theorem readFlaky_dimensions_witness :
    (readFlaky { reads := [[0x80, 0x07, 0x38, 0x04], [0], [0], [2]] } {}).output.Width = 1920 ∧
    (readFlaky { reads := [[0x80, 0x07, 0x38, 0x04], [0], [0], [2]] } {}).output.Height = 1080 :=
  (readFlaky_dimensions { reads := [[0x80, 0x07, 0x38, 0x04], [0], [0], [2]] } {}
    0x80 0x07 0x38 0x04 [0] [0] [2] [] (by decide) (by decide) (by decide) rfl).2.2.2 rfl

/-- C7: the flaky and the unknown strategy read the signal flag (the byte at
0xf6e9, their second read) the same way: for every flag byte `f`, the other
reads answering, each of them sets signal to "yes" if and only if `f = 0` and
to "no" otherwise, so both report the same signal for the same flag. -/
theorem flaky_unknown_signal (cF cU : Context) (oF oU : OutputData) (f : Byte)
    (d e ft ft2 cs fm : List Byte) (restF restU : List (List Byte))
    (hd : d.length = 4) (he : e.length = 8) (hcs : cs ≠ []) (hfm : fm ≠ [])
    (hF : cF.reads = d :: (f :: ft) :: cs :: fm :: restF)
    (hU : cU.reads = e :: (f :: ft2) :: restU) :
    ((readFlaky cF oF).output.Signal = "yes" ↔ f = 0) ∧
    (f ≠ 0 → (readFlaky cF oF).output.Signal = "no") ∧
    ((readUnknown cU oU).output.Signal = "yes" ↔ f = 0) ∧
    (f ≠ 0 → (readUnknown cU oU).output.Signal = "no") ∧
    (readFlaky cF oF).output.Signal = (readUnknown cU oU).output.Signal ∧
    (readFlaky cF oF).ctx.log = cF.log ++
      [Call.readmem { Region := "RAM", Addr := 0x0000f660 } 4,
       Call.readmem { Region := "RAM", Addr := 0x0000f6e9 } 1,
       Call.readmem { Region := "RAM", Addr := 0x00001c3a } 1,
       Call.readmem { Region := "RAM", Addr := 0x00001c41 } 1] ∧
    (readUnknown cU oU).ctx.log = cU.log ++
      [Call.readmem { Region := "RAM", Addr := 0x0000f606 } 8,
       Call.readmem { Region := "RAM", Addr := 0x0000f6e9 } 1] := by
  rw [readFlaky_eq cF oF d (f :: ft) cs fm restF (by omega) (by simp)
    (length_pos_of_ne_nil cs hcs) (length_pos_of_ne_nil fm hfm) hF,
    readUnknown_eq cU oU e (f :: ft2) restU (by omega) (by simp) hU]
  show ((if (f.val : Int) = 0 then "yes" else "no") = "yes" ↔ f = 0) ∧
    (f ≠ 0 → (if (f.val : Int) = 0 then "yes" else "no") = "no") ∧
    ((if (f.val : Int) = 0 then "yes" else "no") = "yes" ↔ f = 0) ∧
    (f ≠ 0 → (if (f.val : Int) = 0 then "yes" else "no") = "no") ∧
    (if (f.val : Int) = 0 then "yes" else "no") = (if (f.val : Int) = 0 then "yes" else "no") ∧
    _ ∧ _
  by_cases h : f = 0
  · rw [if_pos ((byte_cast_eq_zero f).mpr h)]
    exact ⟨⟨fun _ => h, fun _ => rfl⟩, fun hn => absurd h hn, ⟨fun _ => h, fun _ => rfl⟩,
      fun hn => absurd h hn, rfl, rfl, rfl⟩
  · rw [if_neg (mt (byte_cast_eq_zero f).mp h)]
    exact ⟨⟨fun hc => absurd hc (by decide), fun hc => absurd hc h⟩, fun _ => rfl,
      ⟨fun hc => absurd hc (by decide), fun hc => absurd hc h⟩, fun _ => rfl, rfl, rfl, rfl⟩

/-- Witness of C7: with the flag byte 3 both strategies report "no". -/
theorem flaky_unknown_signal_witness :
    (readFlaky { reads := [[0x80, 0x07, 0x38, 0x04], [3], [0], [2]] } {}).output.Signal = "no" ∧
    (readUnknown { reads := [[0x80, 0x07, 0, 0, 0, 0, 0x38, 0x04], [3]] } {}).output.Signal
      = "no" :=
  ⟨(flaky_unknown_signal { reads := [[0x80, 0x07, 0x38, 0x04], [3], [0], [2]] }
      { reads := [[0x80, 0x07, 0, 0, 0, 0, 0x38, 0x04], [3]] } {} {} 3
      [0x80, 0x07, 0x38, 0x04] [0x80, 0x07, 0, 0, 0, 0, 0x38, 0x04] [] [] [0] [2] [] []
      rfl rfl (by decide) (by decide) rfl rfl).2.1 (by decide),
   (flaky_unknown_signal { reads := [[0x80, 0x07, 0x38, 0x04], [3], [0], [2]] }
      { reads := [[0x80, 0x07, 0, 0, 0, 0, 0x38, 0x04], [3]] } {} {} 3
      [0x80, 0x07, 0x38, 0x04] [0x80, 0x07, 0, 0, 0, 0, 0x38, 0x04] [] [] [0] [2] [] []
      rfl rfl (by decide) (by decide) rfl rfl).2.2.2.1 (by decide)⟩

/-- C8: for every 8-byte buffer answered to the first read of the unknown
strategy and every non-empty answer to its flag read, `readUnknown` returns
true with width `buf[0] + 256*buf[1]` and height `buf[6] + 256*buf[7]`, and
frame id, colorspace, format and time stamp are what they were before the
call. -/
theorem readUnknown_decodes (c : Context) (output : OutputData) (buf fl : List Byte)
    (rest : List (List Byte)) (hlen : buf.length = 8) (hfl : fl ≠ [])
    (hread : c.reads = buf :: fl :: rest) :
    (readUnknown c output).outcome = Outcome.returned true ∧
    (readUnknown c output).output.Width = ((buf[0]).val : Int) + 256 * ((buf[1]).val : Int) ∧
    (readUnknown c output).output.Height = ((buf[6]).val : Int) + 256 * ((buf[7]).val : Int) ∧
    (readUnknown c output).output.FrameID = output.FrameID ∧
    (readUnknown c output).output.Colorspace = output.Colorspace ∧
    (readUnknown c output).output.Format = output.Format ∧
    (readUnknown c output).output.Time = output.Time := by
  rw [readUnknown_eq c output buf fl rest (by omega) (length_pos_of_ne_nil fl hfl) hread]
  refine ⟨rfl, ?_, ?_, rfl, rfl, rfl, rfl⟩
  · show ((buf[1]).val : Int) * 256 + ((buf[0]).val : Int) = _
    ring
  · show ((buf[7]).val : Int) * 256 + ((buf[6]).val : Int) = _
    ring

/-- Witness of C8: a 1920x1080 buffer read into a snapshot that already holds
a time stamp, a frame id, a colorspace and a format. -/
theorem readUnknown_decodes_witness :
    (readUnknown { reads := [[0x80, 0x07, 0, 0, 0, 0, 0x38, 0x04], [0]] }
      { Time := 1700000000000, FrameID := 9, Colorspace := "RGB", Format := "DVI" }).output
    = { Width := 1920, Height := 1080, Signal := "yes", Time := 1700000000000, FrameID := 9,
        Colorspace := "RGB", Format := "DVI" } ∧
    (readUnknown { reads := [[0x80, 0x07, 0, 0, 0, 0, 0x38, 0x04], [0]] }
      { Time := 1700000000000, FrameID := 9, Colorspace := "RGB", Format := "DVI" }).outcome
    = Outcome.returned true :=
  ⟨by decide,
   (readUnknown_decodes { reads := [[0x80, 0x07, 0, 0, 0, 0, 0x38, 0x04], [0]] }
      { Time := 1700000000000, FrameID := 9, Colorspace := "RGB", Format := "DVI" }
      [0x80, 0x07, 0, 0, 0, 0, 0x38, 0x04] [0] [] rfl (by decide) rfl).1⟩

/-- The bertold strategy when the procedure call answers with registers: it
returns true with width, height, signal and frame id written, and the call
went to 0xf41e before the scaler and to 0xf406 otherwise. -/
theorem readBertold_eq (c : Context) (output : OutputData) (beforescaler : Bool)
    (resp : PatchExecFuncResponse) (rest : List (Option PatchExecFuncResponse))
    (hexec : c.execs = some resp :: rest) :
    readBertold c output beforescaler =
      ⟨Outcome.returned true,
        { Width := (resp.R3 : Int) * 256 + (resp.R2 : Int)
          Height := (resp.R5 : Int) * 256 + (resp.R4 : Int)
          Signal := if resp.R6 = 0 then "yes" else "no"
          Time := output.Time
          FrameID := (resp.A : Int)
          Colorspace := output.Colorspace
          Format := output.Format },
        { reads := c.reads
          execs := rest
          log := c.log ++
            [Call.patchExecFunc true (if beforescaler then 0xf41e else 0xf406)] }⟩ := by
  obtain ⟨reads, execs, log⟩ := c
  simp only at hexec
  subst hexec
  cases beforescaler <;> by_cases h : resp.R6 = 0 <;> simp [readBertold, PatchExecFunc, h]

/-- C9: the region "bertold" runs `readBertold` with the entry address 0xf41e
and "bertold_scaler" with 0xf406, in one procedure call.  For every register
response of a call that does not error, `readBertold` returns true with
width `R3*256 + R2`, height `R5*256 + R4`, signal "yes" if and only if
`R6 = 0` (else "no") and frame id `A`; it returns false exactly when the call
errors. -/
theorem readBertold_decodes (c : Context) (output : OutputData) :
    readRegion "bertold" c output = readBertold c output true ∧
    readRegion "bertold_scaler" c output = readBertold c output false ∧
    (readBertold c output true).ctx.log = c.log ++ [Call.patchExecFunc true 0xf41e] ∧
    (readBertold c output false).ctx.log = c.log ++ [Call.patchExecFunc true 0xf406] ∧
    ∀ beforescaler : Bool,
      (∀ resp rest, c.execs = some resp :: rest →
        (readBertold c output beforescaler).outcome = Outcome.returned true ∧
        (readBertold c output beforescaler).output.Width
          = (resp.R3 : Int) * 256 + (resp.R2 : Int) ∧
        (readBertold c output beforescaler).output.Height
          = (resp.R5 : Int) * 256 + (resp.R4 : Int) ∧
        ((readBertold c output beforescaler).output.Signal = "yes" ↔ resp.R6 = 0) ∧
        (resp.R6 ≠ 0 → (readBertold c output beforescaler).output.Signal = "no") ∧
        (readBertold c output beforescaler).output.FrameID = (resp.A : Int)) ∧
      ((readBertold c output beforescaler).outcome = Outcome.returned false ↔
        (PatchExecFunc c true (if beforescaler then 0xf41e else 0xf406)).1 = none) := by
  refine ⟨by simp [readRegion], by simp [readRegion], ?_, ?_, ?_⟩
  · obtain ⟨reads, execs, log⟩ := c
    rcases execs with _ | ⟨_ | resp, rest⟩ <;> rfl
  · obtain ⟨reads, execs, log⟩ := c
    rcases execs with _ | ⟨_ | resp, rest⟩ <;> rfl
  · intro beforescaler
    constructor
    · intro resp rest hexec
      rw [readBertold_eq c output beforescaler resp rest hexec]
      refine ⟨rfl, rfl, rfl, ?_, ?_, rfl⟩
      · show (if resp.R6 = 0 then "yes" else "no") = "yes" ↔ _
        by_cases h : resp.R6 = 0
        · rw [if_pos h]
          exact ⟨fun _ => h, fun _ => rfl⟩
        · rw [if_neg h]
          exact ⟨fun hc => absurd hc (by decide), fun hc => absurd hc h⟩
      · intro h
        show (if resp.R6 = 0 then "yes" else "no") = "no"
        rw [if_neg h]
    · obtain ⟨reads, execs, log⟩ := c
      rcases execs with _ | ⟨_ | resp, rest⟩
      · cases beforescaler <;> exact ⟨fun _ => rfl, fun _ => rfl⟩
      · cases beforescaler <;> exact ⟨fun _ => rfl, fun _ => rfl⟩
      · rw [readBertold_eq ⟨reads, some resp :: rest, log⟩ output beforescaler resp rest rfl]
        constructor
        · intro hc
          exact absurd hc (fun h => Outcome.noConfusion h (fun hb => Bool.noConfusion hb))
        · intro hc
          cases beforescaler <;> exact absurd hc (by simp [PatchExecFunc])

/-- Witness of C9: the registers of a 1920x1080 frame with frame id 7, read
before the scaler. -/
theorem readBertold_decodes_witness :
    (readBertold { execs := [some { A := 7, R2 := 0x80, R3 := 0x07, R4 := 0x38, R5 := 0x04 }] }
      {} true).outcome = Outcome.returned true ∧
    (readBertold { execs := [some { A := 7, R2 := 0x80, R3 := 0x07, R4 := 0x38, R5 := 0x04 }] }
      {} true).output.Signal = "yes" ∧
    (readBertold { execs := [some { A := 7, R2 := 0x80, R3 := 0x07, R4 := 0x38, R5 := 0x04 }] }
      {} true).output.FrameID = 7 :=
  ⟨((readBertold_decodes
      { execs := [some { A := 7, R2 := 0x80, R3 := 0x07, R4 := 0x38, R5 := 0x04 }] } {}).2.2.2.2
      true).1 { A := 7, R2 := 0x80, R3 := 0x07, R4 := 0x38, R5 := 0x04 } [] rfl |>.1,
   (((readBertold_decodes
      { execs := [some { A := 7, R2 := 0x80, R3 := 0x07, R4 := 0x38, R5 := 0x04 }] } {}).2.2.2.2
      true).1 { A := 7, R2 := 0x80, R3 := 0x07, R4 := 0x38, R5 := 0x04 } [] rfl).2.2.2.1.2 rfl,
   (((readBertold_decodes
      { execs := [some { A := 7, R2 := 0x80, R3 := 0x07, R4 := 0x38, R5 := 0x04 }] } {}).2.2.2.2
      true).1 { A := 7, R2 := 0x80, R3 := 0x07, R4 := 0x38, R5 := 0x04 } [] rfl).2.2.2.2.2⟩

/-- C10: the fazant strategy makes no collaborator call and does not depend
on the collaborators: for every snapshot and every collaborator state
`readFazant` returns true with width 42, height 42 and signal
"fazantfazantfazant", the other fields and the collaborators as they were; so
running it `n >= 1` times leaves the same snapshot as running it once. -/
theorem readFazant_idempotent (c c2 : Context) (output : OutputData) (n : Nat) (hn : 1 ≤ n) :
    readFazant c output =
      ⟨Outcome.returned true,
        { Width := 42, Height := 42, Signal := "fazantfazantfazant", Time := output.Time,
          FrameID := output.FrameID, Colorspace := output.Colorspace,
          Format := output.Format }, c⟩ ∧
    (readFazant c2 output).output = (readFazant c output).output ∧
    fazantTimes n c output = readFazant c output := by
  refine ⟨rfl, rfl, ?_⟩
  induction n with
  | zero => omega
  | succ k ih =>
    rcases Nat.eq_zero_or_pos k with hk | hk
    · subst hk
      rfl
    · show readFazant (fazantTimes k c output).ctx (fazantTimes k c output).output = _
      rw [ih hk]
      rfl

/-- Witness of C10: three runs on a time-stamped snapshot. -/
theorem readFazant_idempotent_witness :
    fazantTimes 3 { reads := [[1, 2]] } { Time := 1700000000000 }
      = readFazant { reads := [[1, 2]] } { Time := 1700000000000 } :=
  (readFazant_idempotent { reads := [[1, 2]] } {} { Time := 1700000000000 } 3 (by decide)).2.2

/-! The poll cycle of `Run`. -/

/-- The cycle whose strategy returns true: the rendering goes to the sink,
then the loop ends in single-shot mode and sleeps once in loop mode. -/
theorem cycle_of_true (s : StatusCmd) (st : Poller) (hst : st.phase = Phase.reading)
    (hok : (readRegion s.Region st.ctx { Time := (UnixMilli st.clock).1 }).outcome
      = Outcome.returned true) :
    cycle s st =
      if s.Loop = 0 then
        { ctx := (readRegion s.Region st.ctx { Time := (UnixMilli st.clock).1 }).ctx
          clock := (UnixMilli st.clock).2
          events := st.events ++
            [emit s (render s
              (readRegion s.Region st.ctx { Time := (UnixMilli st.clock).1 }).output)]
          phase := Phase.done }
      else
        { ctx := (readRegion s.Region st.ctx { Time := (UnixMilli st.clock).1 }).ctx
          clock := (UnixMilli st.clock).2
          events := st.events ++
            [emit s (render s
              (readRegion s.Region st.ctx { Time := (UnixMilli st.clock).1 }).output),
             Event.sleep (sleepDuration s)]
          phase := Phase.reading } := by
  unfold cycle
  simp only [hst]
  rw [hok]

/-- The cycle whose strategy returns false: exit with status 1 in single-shot
mode, one sleep in loop mode. -/
theorem cycle_of_false (s : StatusCmd) (st : Poller) (hst : st.phase = Phase.reading)
    (hfail : (readRegion s.Region st.ctx { Time := (UnixMilli st.clock).1 }).outcome
      = Outcome.returned false) :
    cycle s st =
      if s.Loop = 0 then
        { ctx := (readRegion s.Region st.ctx { Time := (UnixMilli st.clock).1 }).ctx
          clock := (UnixMilli st.clock).2
          events := st.events ++ [Event.stdout "Read nothing from RAM, exiting\n"]
          phase := Phase.exited 1 }
      else
        { ctx := (readRegion s.Region st.ctx { Time := (UnixMilli st.clock).1 }).ctx
          clock := (UnixMilli st.clock).2
          events := st.events ++ [Event.sleep (sleepDuration s)]
          phase := Phase.reading } := by
  unfold cycle
  simp only [hst]
  rw [hfail]

/-- The cycle whose strategy panics: the process is gone, nothing is
emitted. -/
theorem cycle_of_panicked (s : StatusCmd) (st : Poller) (hst : st.phase = Phase.reading)
    (hpanic : (readRegion s.Region st.ctx { Time := (UnixMilli st.clock).1 }).outcome
      = Outcome.panicked) :
    cycle s st =
      { ctx := (readRegion s.Region st.ctx { Time := (UnixMilli st.clock).1 }).ctx
        clock := (UnixMilli st.clock).2
        events := st.events
        phase := Phase.crashed } := by
  unfold cycle
  simp only [hst]
  rw [hpanic]

theorem cycle_of_not_reading (s : StatusCmd) (st : Poller) (hst : st.phase ≠ Phase.reading) :
    cycle s st = st := by
  unfold cycle
  split
  · rename_i h
    exact absurd h hst
  · rfl

theorem Run_of_not_reading (s : StatusCmd) (fuel : Nat) (st : Poller)
    (hst : st.phase ≠ Phase.reading) : Run s fuel st = st := by
  cases fuel with
  | zero => rfl
  | succ k =>
    unfold Run
    split
    · rename_i h
      exact absurd h hst
    · rfl

theorem Run_succ (s : StatusCmd) (fuel : Nat) (st : Poller) :
    Run s (fuel + 1) st = Run s fuel (cycle s st) := by
  by_cases hst : st.phase = Phase.reading
  · rw [Run]
    simp only [hst]
  · rw [cycle_of_not_reading s st hst, Run_of_not_reading s (fuel + 1) st hst,
      Run_of_not_reading s fuel st hst]

theorem readRegion_default (region : String) (c : Context) (output : OutputData)
    (h1 : region ≠ "murderous") (h3 : region ≠ "unknown")
    (h4 : region ≠ "fazant") (h5 : region ≠ "bertold") (h6 : region ≠ "bertold_scaler") :
    readRegion region c output = readFlaky c output := by
  unfold readRegion
  rw [if_neg h1, if_neg h3, if_neg h4, if_neg h5, if_neg h6]
  split_ifs <;> rfl

/-- C11: strategy selection by name defaults to flaky.  For every region name
that is none of "murderous", "flaky", "unknown", "fazant", "bertold",
"bertold_scaler", and so for the empty name, the strategy run gives the same
outcome, snapshot and collaborator state as for the name "flaky", and one
poll cycle of `Run` leaves the same state as it does for "flaky". -/
theorem region_defaults_to_flaky (s : StatusCmd) (region : String) (st : Poller) (c : Context)
    (output : OutputData)
    (hname : region ∉ ["murderous", "flaky", "unknown", "fazant", "bertold", "bertold_scaler"]) :
    readRegion region c output = readRegion "flaky" c output ∧
    cycle { s with Region := region } st = cycle { s with Region := "flaky" } st ∧
    cycle { s with Region := "" } st = cycle { s with Region := "flaky" } st := by
  simp only [List.mem_cons, List.mem_singleton, not_or, List.not_mem_nil, or_false] at hname
  obtain ⟨h1, _, h3, h4, h5, h6⟩ := hname
  have hflaky : ∀ c output, readRegion "flaky" c output = readFlaky c output := by
    intro c output
    simp [readRegion]
  have hdef : ∀ c output, readRegion region c output = readFlaky c output := by
    intro c output
    exact readRegion_default region c output h1 h3 h4 h5 h6
  have hempty : ∀ c output, readRegion "" c output = readFlaky c output := by
    intro c output
    simp [readRegion]
  refine ⟨by rw [hdef, hflaky], ?_, ?_⟩
  · unfold cycle
    simp only [render, emit, sleepDuration, hdef, hflaky]
  · unfold cycle
    simp only [render, emit, sleepDuration, hempty, hflaky]

/-- Witness of C11: the region name "scaler" and the empty name read what
"flaky" reads. -/
theorem region_defaults_to_flaky_witness :
    readRegion "scaler" { reads := [[0x80, 0x07, 0x38, 0x04], [0], [1], [2]] } {}
      = readRegion "flaky" { reads := [[0x80, 0x07, 0x38, 0x04], [0], [1], [2]] } {} ∧
    cycle { Region := "" } { ctx := { reads := [[0x80, 0x07, 0x38, 0x04], [0], [1], [2]] } }
      = cycle { Region := "flaky" }
          { ctx := { reads := [[0x80, 0x07, 0x38, 0x04], [0], [1], [2]] } } :=
  ⟨(region_defaults_to_flaky {} "scaler" {}
      { reads := [[0x80, 0x07, 0x38, 0x04], [0], [1], [2]] } {} (by decide)).1,
   (region_defaults_to_flaky {} "scaler"
      { ctx := { reads := [[0x80, 0x07, 0x38, 0x04], [0], [1], [2]] } } {} {} (by decide)).2.2⟩

/-- The failure message of `Run` is not a rendering of any snapshot: the JSON
text opens with a brace and the line text with `time`. -/
theorem render_ne_failure_message (s : StatusCmd) (output : OutputData) :
    render s output ≠ "Read nothing from RAM, exiting\n" := by
  intro h
  have hd := congrArg String.data h
  cases hj : s.Json
  · simp [render, hj, Sprintf, sprintfChars] at hd
  · simp [render, hj, Marshal] at hd

/-- C12: in single-shot mode (loop interval 0), when the strategy returns
false, `Run` ends the process with exit status 1 and emits no output line and
no JSON: the one event of the run is the failure report
"Read nothing from RAM, exiting" on standard output, which is the rendering of
no snapshot in either mode, and the file is not written. -/
theorem single_shot_failure (s : StatusCmd) (st : Poller) (fuel : Nat) (hfuel : 1 ≤ fuel)
    (hloop : s.Loop = 0) (hst : st.phase = Phase.reading)
    (hfail : (readRegion s.Region st.ctx { Time := (UnixMilli st.clock).1 }).outcome
      = Outcome.returned false) :
    (Run s fuel st).phase = Phase.exited 1 ∧
    (Run s fuel st).events = st.events ++ [Event.stdout "Read nothing from RAM, exiting\n"] ∧
    (∀ (mode : StatusCmd) (output : OutputData),
      Event.stdout (render mode output) ∉ [Event.stdout "Read nothing from RAM, exiting\n"]) ∧
    (∀ (filename data : String) (perm : Nat),
      Event.writeFile filename data perm
        ∉ [Event.stdout "Read nothing from RAM, exiting\n"]) := by
  obtain ⟨k, rfl⟩ : ∃ k, fuel = k + 1 := ⟨fuel - 1, by omega⟩
  have hc := cycle_of_false s st hst hfail
  rw [if_pos hloop] at hc
  rw [Run_succ, hc, Run_of_not_reading _ _ _ (by simp)]
  refine ⟨rfl, rfl, ?_, ?_⟩
  · intro mode output
    simp only [List.mem_singleton, Event.stdout.injEq]
    exact render_ne_failure_message mode output
  · intro filename data perm
    simp

/-- Witness of C12: the single-shot run of region "unknown" whose first read
comes back empty. -/
theorem single_shot_failure_witness :
    (Run { Region := "unknown" } 1 { ctx := { reads := [[]] }, clock := [1700000000000] }).phase
      = Phase.exited 1 ∧
    (Run { Region := "unknown" } 1 { ctx := { reads := [[]] }, clock := [1700000000000] }).events
      = [] ++ [Event.stdout "Read nothing from RAM, exiting\n"] :=
  ⟨(single_shot_failure { Region := "unknown" }
      { ctx := { reads := [[]] }, clock := [1700000000000] } 1 (by decide) rfl rfl
      (by decide)).1,
   (single_shot_failure { Region := "unknown" }
      { ctx := { reads := [[]] }, clock := [1700000000000] } 1 (by decide) rfl rfl
      (by decide)).2.1⟩

/-- C13: in single-shot mode (loop interval 0), when the strategy returns
true, `Run` invokes the strategy once, hands exactly one rendering of that
snapshot to the sink, does not sleep, leaves the loop and returns `nil`; more
fuel changes nothing. -/
theorem single_shot_success (s : StatusCmd) (st : Poller) (fuel : Nat) (hfuel : 1 ≤ fuel)
    (hloop : s.Loop = 0) (hst : st.phase = Phase.reading)
    (hok : (readRegion s.Region st.ctx { Time := (UnixMilli st.clock).1 }).outcome
      = Outcome.returned true) :
    (Run s fuel st).phase = Phase.done ∧
    (Run s fuel st).events = st.events ++
      [emit s (render s
        (readRegion s.Region st.ctx { Time := (UnixMilli st.clock).1 }).output)] ∧
    (Run s fuel st).ctx = (readRegion s.Region st.ctx { Time := (UnixMilli st.clock).1 }).ctx ∧
    (Run s fuel st).clock = (UnixMilli st.clock).2 ∧
    (∀ d, Event.sleep d ∉
      [emit s (render s
        (readRegion s.Region st.ctx { Time := (UnixMilli st.clock).1 }).output)]) := by
  obtain ⟨k, rfl⟩ : ∃ k, fuel = k + 1 := ⟨fuel - 1, by omega⟩
  have hc := cycle_of_true s st hst hok
  rw [if_pos hloop] at hc
  rw [Run_succ, hc, Run_of_not_reading _ _ _ (by simp)]
  refine ⟨rfl, rfl, rfl, rfl, ?_⟩
  intro d
  unfold emit
  split_ifs <;> simp

/-- Witness of C13: a single-shot run of the flaky strategy prints its seven
lines once and is done. -/
theorem single_shot_success_witness :
    (Run { Region := "flaky" } 3
      { ctx := { reads := [[0x80, 0x07, 0x38, 0x04], [0], [1], [2]] },
        clock := [1700000000000] }).phase = Phase.done ∧
    (Run { Region := "flaky" } 3
      { ctx := { reads := [[0x80, 0x07, 0x38, 0x04], [0], [1], [2]] },
        clock := [1700000000000] }).events =
      [Event.stdout
        "time: 1700000000000\nwidth: 1920\nheight: 1080\nsignal: yes\nframeid: 0\ncolorspace: Y422\nformat: HDMI\n"] := by
  have h := single_shot_success { Region := "flaky" }
    { ctx := { reads := [[0x80, 0x07, 0x38, 0x04], [0], [1], [2]] },
      clock := [1700000000000] } 3 (by decide) rfl rfl (by decide)
  exact ⟨h.1, h.2.1.trans (by decide)⟩

theorem emit_isOutput (s : StatusCmd) (p : String) : Event.isOutput (emit s p) = true := by
  unfold emit
  split_ifs <;> rfl

theorem sleep_isOutput (d : Int) : Event.isOutput (Event.sleep d) = false := rfl

/-- One cycle of the loop mode, when the strategy returns: the rendering is
handed to the sink if the strategy succeeded, the poller sleeps once, and it
is reading again. -/
theorem loop_cycle (s : StatusCmd) (st : Poller) (hloop : s.Loop ≠ 0)
    (hst : st.phase = Phase.reading) :
    ((readRegion s.Region st.ctx { Time := (UnixMilli st.clock).1 }).outcome
        = Outcome.returned true →
      (cycle s st).phase = Phase.reading ∧
      (cycle s st).events = st.events ++
        [emit s (render s
          (readRegion s.Region st.ctx { Time := (UnixMilli st.clock).1 }).output),
         Event.sleep (sleepDuration s)]) ∧
    ((readRegion s.Region st.ctx { Time := (UnixMilli st.clock).1 }).outcome
        = Outcome.returned false →
      (cycle s st).phase = Phase.reading ∧
      (cycle s st).events = st.events ++ [Event.sleep (sleepDuration s)]) := by
  constructor
  · intro hok
    rw [cycle_of_true s st hst hok, if_neg hloop]
    exact ⟨rfl, rfl⟩
  · intro hfail
    rw [cycle_of_false s st hst hfail, if_neg hloop]
    exact ⟨rfl, rfl⟩

/-- The outputs of `n` cycles of the loop mode are the renderings of the
successful cycles, in order. -/
theorem loop_outputs_eq (s : StatusCmd) (hloop : s.Loop ≠ 0) (n : Nat) :
    ∀ st : Poller, st.phase = Phase.reading →
      (Run s n st).events.filter Event.isOutput
        = st.events.filter Event.isOutput ++ loopRenderings s n st.ctx st.clock := by
  induction n with
  | zero =>
    intro st _
    simp [Run, loopRenderings]
  | succ k ih =>
    intro st hst
    rw [Run_succ]
    cases hr : (readRegion s.Region st.ctx { Time := (UnixMilli st.clock).1 }).outcome with
    | panicked =>
      have hc := cycle_of_panicked s st hst hr
      rw [hc, Run_of_not_reading _ _ _ (by simp)]
      simp only [loopRenderings, hr, List.append_nil]
    | returned ok =>
      cases ok with
      | false =>
        have hc := cycle_of_false s st hst hr
        rw [if_neg hloop] at hc
        rw [hc, ih _ rfl]
        simp [loopRenderings, hr, List.filter_append, List.filter_cons, sleep_isOutput]
      | true =>
        have hc := cycle_of_true s st hst hr
        rw [if_neg hloop] at hc
        rw [hc, ih _ rfl]
        simp [loopRenderings, hr, List.filter_append, List.filter_cons, sleep_isOutput,
          emit_isOutput]

/-- C14: in loop mode (loop interval not 0) the outputs are exactly the
successful cycles.  For every script of collaborator answers and every `n`,
after `n` cycles the sink has received, in order, the renderings of
`loopRenderings`: one for each cycle whose strategy returned true, each of a
snapshot decoded from a fresh zero-valued snapshot stamped with the time of
its cycle, and nothing for a cycle that failed.  A failed first cycle followed
by a successful second one gives one sleep, then the one rendering, then the
sleep of the second cycle. -/
theorem loop_outputs (s : StatusCmd) (n : Nat) (st : Poller) (hloop : s.Loop ≠ 0)
    (hst : st.phase = Phase.reading) :
    (Run s n st).events.filter Event.isOutput
      = st.events.filter Event.isOutput ++ loopRenderings s n st.ctx st.clock ∧
    ((readRegion s.Region st.ctx { Time := (UnixMilli st.clock).1 }).outcome
        = Outcome.returned false →
     (readRegion s.Region
        (readRegion s.Region st.ctx { Time := (UnixMilli st.clock).1 }).ctx
        { Time := (UnixMilli (UnixMilli st.clock).2).1 }).outcome = Outcome.returned true →
     (Run s 2 st).phase = Phase.reading ∧
     (Run s 2 st).events = st.events ++
       [Event.sleep (sleepDuration s),
        emit s (render s
          (readRegion s.Region
            (readRegion s.Region st.ctx { Time := (UnixMilli st.clock).1 }).ctx
            { Time := (UnixMilli (UnixMilli st.clock).2).1 }).output),
        Event.sleep (sleepDuration s)]) := by
  refine ⟨loop_outputs_eq s hloop n st hst, ?_⟩
  intro hfail hok
  have h1 := cycle_of_false s st hst hfail
  rw [if_neg hloop] at h1
  have h2 := cycle_of_true s (cycle s st) (by rw [h1]) (by rw [h1]; exact hok)
  rw [if_neg hloop] at h2
  rw [Run_succ, Run_succ, h2]
  constructor
  · rfl
  · show (cycle s st).events ++ _ = _
    rw [h1]
    simp

/-- Witness of C14: the flaky region in loop mode with interval 50; the first
read of the first cycle comes back empty and the second cycle succeeds. -/
theorem loop_outputs_witness :
    (Run { Loop := 50, Region := "flaky" } 2
      { ctx := { reads := [[], [0x80, 0x07, 0x38, 0x04], [0], [1], [2]] },
        clock := [1700000000000, 1700000000050] }).events =
      [Event.sleep 50000000,
       Event.stdout
        "time: 1700000000050\nwidth: 1920\nheight: 1080\nsignal: yes\nframeid: 0\ncolorspace: Y422\nformat: HDMI\n",
       Event.sleep 50000000] := by
  have h := (loop_outputs { Loop := 50, Region := "flaky" } 2
    { ctx := { reads := [[], [0x80, 0x07, 0x38, 0x04], [0], [1], [2]] },
      clock := [1700000000000, 1700000000050] } (by decide) rfl).2 (by decide) (by decide)
  exact h.2.trans (by decide)

/-- In loop mode the poller never leaves the loop by itself: after any number
of cycles it is reading, unless a strategy panicked and took the process
down. -/
theorem loop_reading_or_crashed (s : StatusCmd) (hloop : s.Loop ≠ 0) (n : Nat) :
    ∀ st : Poller, st.phase = Phase.reading →
      (Run s n st).phase = Phase.reading ∨ (Run s n st).phase = Phase.crashed := by
  induction n with
  | zero =>
    intro st hst
    exact Or.inl hst
  | succ k ih =>
    intro st hst
    rw [Run_succ]
    cases hr : (readRegion s.Region st.ctx { Time := (UnixMilli st.clock).1 }).outcome with
    | panicked =>
      rw [cycle_of_panicked s st hst hr, Run_of_not_reading _ _ _ (by simp)]
      exact Or.inr rfl
    | returned ok =>
      cases ok with
      | false => exact ih _ ((loop_cycle s st hloop hst).2 hr).1
      | true => exact ih _ ((loop_cycle s st hloop hst).1 hr).1

/-- C15, at the input where the code departs from it: in loop mode with
interval 50 and region "flaky", the colorspace read of the first cycle comes
back empty.  `readFlaky` has no length check there and panics, so the process
ends instead of sleeping and reading again; the later answers of the
collaborator are never asked for. -/
theorem loop_flaky_empty_code_read_crashes :
    (cycle { Loop := 50, Region := "flaky" }
      { ctx := { reads := [[0x80, 0x07, 0x38, 0x04], [0], [],
                           [0x80, 0x07, 0x38, 0x04], [0], [1], [2]] },
        clock := [1700000000000, 1700000000050] }).phase = Phase.crashed ∧
    (Run { Loop := 50, Region := "flaky" } 5
      { ctx := { reads := [[0x80, 0x07, 0x38, 0x04], [0], [],
                           [0x80, 0x07, 0x38, 0x04], [0], [1], [2]] },
        clock := [1700000000000, 1700000000050] }).phase = Phase.crashed ∧
    (Run { Loop := 50, Region := "flaky" } 5
      { ctx := { reads := [[0x80, 0x07, 0x38, 0x04], [0], [],
                           [0x80, 0x07, 0x38, 0x04], [0], [1], [2]] },
        clock := [1700000000000, 1700000000050] }).events = [] := by
  decide

/-- The sleep of the loop mode, for an interval whose product with
`time.Millisecond` fits an `int64`: it is the interval in milliseconds. -/
theorem sleepDuration_eq (s : StatusCmd) (hlo : -9223372036854 ≤ s.Loop)
    (hhi : s.Loop ≤ 9223372036854) : sleepDuration s = s.Loop * Millisecond := by
  unfold sleepDuration wrapInt64 Millisecond
  omega

/-- C16, at the input where the code departs from it: with the loop interval
50 the poller sleeps once after the cycle, and the duration it asks for is 50
milliseconds (50000000 nanoseconds), not the 50 microseconds (50000
nanoseconds) of the help text of the option. -/
theorem loop_sleep_is_milliseconds :
    (cycle { Loop := 50, Region := "fazant" } { clock := [1700000000000] }).events =
      [Event.stdout
        "time: 1700000000000\nwidth: 42\nheight: 42\nsignal: fazantfazantfazant\nframeid: 0\ncolorspace: \nformat: \n",
       Event.sleep (50 * Millisecond)] ∧
    (cycle { Loop := 50, Region := "unknown" } { ctx := { reads := [[]] } }).events =
      [Event.sleep (50 * Millisecond)] ∧
    sleepDuration { Loop := 50 } = 50000000 ∧
    sleepDuration { Loop := 50 } ≠ 50 * Microsecond := by
  decide

/-- The murderous strategy writes width, height and signal only, however it
ends. -/
theorem readMurderous_frame (c : Context) (output : OutputData) :
    (readMurderous c output).output.Time = output.Time ∧
    (readMurderous c output).output.FrameID = output.FrameID ∧
    (readMurderous c output).output.Colorspace = output.Colorspace ∧
    (readMurderous c output).output.Format = output.Format := by
  unfold readMurderous
  repeat' split
  all_goals exact ⟨rfl, rfl, rfl, rfl⟩

/-- The flaky strategy never writes the time stamp or the frame id, however
it ends. -/
theorem readFlaky_frame (c : Context) (output : OutputData) :
    (readFlaky c output).output.Time = output.Time ∧
    (readFlaky c output).output.FrameID = output.FrameID := by
  unfold readFlaky
  repeat' split
  all_goals exact ⟨rfl, rfl⟩

/-- The unknown strategy writes width, height and signal only, however it
ends. -/
theorem readUnknown_frame (c : Context) (output : OutputData) :
    (readUnknown c output).output.Time = output.Time ∧
    (readUnknown c output).output.FrameID = output.FrameID ∧
    (readUnknown c output).output.Colorspace = output.Colorspace ∧
    (readUnknown c output).output.Format = output.Format := by
  unfold readUnknown
  repeat' split
  all_goals exact ⟨rfl, rfl, rfl, rfl⟩

/-- The bertold strategy never writes the time stamp, the colorspace or the
format, however it ends. -/
theorem readBertold_frame (c : Context) (output : OutputData) (beforescaler : Bool) :
    (readBertold c output beforescaler).output.Time = output.Time ∧
    (readBertold c output beforescaler).output.Colorspace = output.Colorspace ∧
    (readBertold c output beforescaler).output.Format = output.Format := by
  obtain ⟨reads, execs, log⟩ := c
  rcases execs with _ | ⟨_ | resp, rest⟩
  · exact ⟨rfl, rfl, rfl⟩
  · exact ⟨rfl, rfl, rfl⟩
  · rw [readBertold_eq ⟨reads, some resp :: rest, log⟩ output beforescaler resp rest rfl]
    exact ⟨rfl, rfl, rfl⟩

/-- C17: no strategy touches the time stamp, and a field a strategy does not
populate keeps its zero value.  On the fresh snapshot stamped with `t` that a
poll cycle hands to the strategy of `region`, whatever the collaborators
answer and however the strategy ends, so also when it succeeds: the time is
`t`; the frame id is 0 unless the region is "bertold" or "bertold_scaler"
(that is for murderous, flaky, unknown, fazant and every name that defaults to
flaky); colorspace and format are empty for murderous, unknown, fazant,
bertold and bertold_scaler. -/
theorem unpopulated_fields_keep_zero (region : String) (c : Context) (t : Int) :
    (readRegion region c { Time := t }).output.Time = t ∧
    (region ≠ "bertold" → region ≠ "bertold_scaler" →
      (readRegion region c { Time := t }).output.FrameID = 0) ∧
    (region ∈ ["murderous", "unknown", "fazant", "bertold", "bertold_scaler"] →
      (readRegion region c { Time := t }).output.Colorspace = "" ∧
      (readRegion region c { Time := t }).output.Format = "") := by
  have hm := readMurderous_frame c { Time := t }
  have hf := readFlaky_frame c { Time := t }
  have hu := readUnknown_frame c { Time := t }
  have hb1 := readBertold_frame c { Time := t } true
  have hb2 := readBertold_frame c { Time := t } false
  unfold readRegion
  split_ifs with h1 h2 h3 h4 h5 h6
  · exact ⟨hm.1, fun _ _ => hm.2.1, fun _ => ⟨hm.2.2.1, hm.2.2.2⟩⟩
  · refine ⟨hf.1, fun _ _ => hf.2, fun hmem => ?_⟩
    rw [h2] at hmem
    exact absurd hmem (by decide)
  · exact ⟨hu.1, fun _ _ => hu.2.1, fun _ => ⟨hu.2.2.1, hu.2.2.2⟩⟩
  · exact ⟨rfl, fun _ _ => rfl, fun _ => ⟨rfl, rfl⟩⟩
  · exact ⟨hb1.1, fun h _ => absurd h5 h, fun _ => ⟨hb1.2.1, hb1.2.2⟩⟩
  · exact ⟨hb2.1, fun _ h => absurd h6 h, fun _ => ⟨hb2.2.1, hb2.2.2⟩⟩
  · refine ⟨hf.1, fun _ _ => hf.2, fun hmem => ?_⟩
    simp only [List.mem_cons, List.mem_singleton, List.not_mem_nil, or_false] at hmem
    rcases hmem with h | h | h | h | h
    · exact absurd h h1
    · exact absurd h h3
    · exact absurd h h4
    · exact absurd h h5
    · exact absurd h h6

/-- Witness of C17: the bertold strategy on a snapshot stamped 1700000000000
leaves colorspace and format empty, and the murderous one leaves the frame id
at 0. -/
theorem unpopulated_fields_keep_zero_witness :
    (readRegion "bertold"
      { execs := [some { A := 7, R2 := 0x80, R3 := 0x07, R4 := 0x38, R5 := 0x04 }] }
      { Time := 1700000000000 }).output.Colorspace = "" ∧
    (readRegion "murderous"
      { reads := [[15, 0, 0, 0, 0x80, 7, 0, 0, 0, 0, 0, 0, 0x1c, 2, 0, 0]] }
      { Time := 1700000000000 }).output.FrameID = 0 :=
  ⟨((unpopulated_fields_keep_zero "bertold"
      { execs := [some { A := 7, R2 := 0x80, R3 := 0x07, R4 := 0x38, R5 := 0x04 }] }
      1700000000000).2.2 (by decide)).1,
   (unpopulated_fields_keep_zero "murderous"
      { reads := [[15, 0, 0, 0, 0x80, 7, 0, 0, 0, 0, 0, 0, 0x1c, 2, 0, 0]] }
      1700000000000).2.1 (by decide) (by decide)⟩

/-- The width and height the flaky strategy writes from a first buffer of at
least 4 bytes, whatever the later reads answer. -/
theorem readFlaky_width_height (c : Context) (output : OutputData) (d : List Byte)
    (rest : List (List Byte)) (hd : 4 ≤ d.length) (hread : c.reads = d :: rest) :
    (readFlaky c output).output.Width = ((d[1]).val : Int) * 256 + ((d[0]).val : Int) ∧
    (readFlaky c output).output.Height = ((d[3]).val : Int) * 256 + ((d[2]).val : Int) := by
  obtain ⟨reads, execs, log⟩ := c
  simp only at hread
  subst hread
  have h0 := byteAt_of_lt d 0 (by omega)
  have h1 := byteAt_of_lt d 1 (by omega)
  have h2 := byteAt_of_lt d 2 (by omega)
  have h3 := byteAt_of_lt d 3 (by omega)
  have hdne : ¬ d.length = 0 := by omega
  simp only [readFlaky, readmem_mk_cons, h0, h1, h2, h3, hdne, if_false]
  repeat' split
  all_goals exact ⟨rfl, rfl⟩

/-- The width and height the unknown strategy writes from a first buffer of
at least 8 bytes, whatever the flag read answers. -/
theorem readUnknown_width_height (c : Context) (output : OutputData) (e : List Byte)
    (rest : List (List Byte)) (he : 8 ≤ e.length) (hread : c.reads = e :: rest) :
    (readUnknown c output).output.Width = ((e[1]).val : Int) * 256 + ((e[0]).val : Int) ∧
    (readUnknown c output).output.Height = ((e[7]).val : Int) * 256 + ((e[6]).val : Int) := by
  obtain ⟨reads, execs, log⟩ := c
  simp only at hread
  subst hread
  have h0 := byteAt_of_lt e 0 (by omega)
  have h1 := byteAt_of_lt e 1 (by omega)
  have h6 := byteAt_of_lt e 6 (by omega)
  have h7 := byteAt_of_lt e 7 (by omega)
  have hene : ¬ e.length = 0 := by omega
  simp only [readUnknown, readmem_mk_cons, h0, h1, h6, h7, hene, if_false]
  repeat' split
  all_goals exact ⟨rfl, rfl⟩

/-- C20: the dimensions the byte-window strategies decode are bounded and not
negative.  For every full-length first buffer on which the strategy returns
true: murderous (16 bytes) gives `0 <= width <= 65535` and
`0 <= height <= 131070`, the height being even when the mode byte is 15;
flaky (4 bytes) and unknown (8 bytes) give `0 <= width <= 65535` and
`0 <= height <= 65535`. -/
theorem dimensions_bounded (c : Context) (output : OutputData) (buf : List Byte)
    (rest : List (List Byte)) (hread : c.reads = buf :: rest) :
    (buf.length = 16 → (readMurderous c output).outcome = Outcome.returned true →
      0 ≤ (readMurderous c output).output.Width ∧
      (readMurderous c output).output.Width ≤ 65535 ∧
      0 ≤ (readMurderous c output).output.Height ∧
      (readMurderous c output).output.Height ≤ 131070 ∧
      (byteAt buf 0 = some 15 → (readMurderous c output).output.Height % 2 = 0)) ∧
    (buf.length = 4 → (readFlaky c output).outcome = Outcome.returned true →
      0 ≤ (readFlaky c output).output.Width ∧ (readFlaky c output).output.Width ≤ 65535 ∧
      0 ≤ (readFlaky c output).output.Height ∧ (readFlaky c output).output.Height ≤ 65535) ∧
    (buf.length = 8 → (readUnknown c output).outcome = Outcome.returned true →
      0 ≤ (readUnknown c output).output.Width ∧ (readUnknown c output).output.Width ≤ 65535 ∧
      0 ≤ (readUnknown c output).output.Height ∧
      (readUnknown c output).output.Height ≤ 65535) := by
  refine ⟨?_, ?_, ?_⟩
  · intro hlen _
    have h0 := byteAt_of_lt buf 0 (by omega)
    rw [readMurderous_eq c output buf rest (by omega) hread, h0]
    have b4 := (buf[4]).isLt
    have b5 := (buf[5]).isLt
    have b12 := (buf[12]).isLt
    have b13 := (buf[13]).isLt
    refine ⟨?_, ?_, ?_, ?_, ?_⟩
    · show 0 ≤ ((buf[5]).val : Int) * 256 + ((buf[4]).val : Int)
      omega
    · show ((buf[5]).val : Int) * 256 + ((buf[4]).val : Int) ≤ 65535
      omega
    · show 0 ≤ (if ((buf[0]).val : Int) = 15 then
          2 * (((buf[13]).val : Int) * 256 + ((buf[12]).val : Int))
        else ((buf[13]).val : Int) * 256 + ((buf[12]).val : Int))
      split_ifs <;> omega
    · show (if ((buf[0]).val : Int) = 15 then
          2 * (((buf[13]).val : Int) * 256 + ((buf[12]).val : Int))
        else ((buf[13]).val : Int) * 256 + ((buf[12]).val : Int)) ≤ 131070
      split_ifs <;> omega
    · intro h15
      have h : ((buf[0]).val : Int) = 15 := Option.some.inj h15
      show (if ((buf[0]).val : Int) = 15 then
          2 * (((buf[13]).val : Int) * 256 + ((buf[12]).val : Int))
        else ((buf[13]).val : Int) * 256 + ((buf[12]).val : Int)) % 2 = 0
      rw [if_pos h]
      omega
  · intro hlen _
    obtain ⟨hw, hh⟩ := readFlaky_width_height c output buf rest (by omega) hread
    rw [hw, hh]
    have b0 := (buf[0]).isLt
    have b1 := (buf[1]).isLt
    have b2 := (buf[2]).isLt
    have b3 := (buf[3]).isLt
    omega
  · intro hlen _
    obtain ⟨hw, hh⟩ := readUnknown_width_height c output buf rest (by omega) hread
    rw [hw, hh]
    have b0 := (buf[0]).isLt
    have b1 := (buf[1]).isLt
    have b6 := (buf[6]).isLt
    have b7 := (buf[7]).isLt
    omega

/-- Witness of C20: the largest fields, `0xff 0xff`, in interlaced mode give
width 65535 and height 131070. -/
theorem dimensions_bounded_witness :
    (readMurderous
      { reads := [[15, 0, 0, 0, 0xff, 0xff, 0, 0, 0, 0, 0, 0, 0xff, 0xff, 0, 0]] }
      {}).output.Height ≤ 131070 ∧
    (readMurderous
      { reads := [[15, 0, 0, 0, 0xff, 0xff, 0, 0, 0, 0, 0, 0, 0xff, 0xff, 0, 0]] }
      {}).output.Height % 2 = 0 :=
  ⟨((dimensions_bounded
      { reads := [[15, 0, 0, 0, 0xff, 0xff, 0, 0, 0, 0, 0, 0, 0xff, 0xff, 0, 0]] } {}
      [15, 0, 0, 0, 0xff, 0xff, 0, 0, 0, 0, 0, 0, 0xff, 0xff, 0, 0] [] rfl).1 rfl
      (by decide)).2.2.2.1,
   ((dimensions_bounded
      { reads := [[15, 0, 0, 0, 0xff, 0xff, 0, 0, 0, 0, 0, 0, 0xff, 0xff, 0, 0]] } {}
      [15, 0, 0, 0, 0xff, 0xff, 0, 0, 0, 0, 0, 0, 0xff, 0xff, 0, 0] [] rfl).1 rfl
      (by decide)).2.2.2.2 (by decide)⟩

/-! The two renderings. -/

theorem digitChar_ne_newline (m : Nat) (hm : m < 10) : Nat.digitChar m ≠ '\n' := by
  interval_cases m <;> decide

theorem toDigitsCore_no_newline (fuel : Nat) :
    ∀ (n : Nat) (ds : List Char), '\n' ∉ ds → '\n' ∉ Nat.toDigitsCore 10 fuel n ds := by
  induction fuel with
  | zero =>
    intro n ds hds
    simpa [Nat.toDigitsCore] using hds
  | succ k ih =>
    intro n ds hds
    have hd : '\n' ∉ Nat.digitChar (n % 10) :: ds := by
      intro hmem
      rcases List.mem_cons.mp hmem with h | h
      · exact digitChar_ne_newline (n % 10) (Nat.mod_lt n (by decide)) h.symm
      · exact hds h
    unfold Nat.toDigitsCore
    show '\n' ∉ if n / 10 = 0 then Nat.digitChar (n % 10) :: ds
      else Nat.toDigitsCore 10 k (n / 10) (Nat.digitChar (n % 10) :: ds)
    split_ifs
    · exact hd
    · exact ih _ _ hd

theorem nat_repr_no_newline (n : Nat) : '\n' ∉ (Nat.repr n).data := by
  unfold Nat.repr Nat.toDigits
  exact toDigitsCore_no_newline _ _ _ (by simp)

/-- The decimal text of an integer has no newline in it. -/
theorem int_toString_no_newline (i : Int) : '\n' ∉ (toString i).data := by
  cases i with
  | ofNat m => exact nat_repr_no_newline m
  | negSucc m =>
    show '\n' ∉ ("-" ++ Nat.repr (Nat.succ m)).data
    rw [String.data_append]
    intro hmem
    rcases List.mem_append.mp hmem with h | h
    · exact absurd h (by decide)
    · exact nat_repr_no_newline _ h

/-- C18: in line mode (`Json` false) the rendering of every snapshot is the
seven lines `key: value`, each ended by a newline, in the order time, width,
height, signal, frameid, colorspace, format.  Every field is there: on the
zero snapshot the integers print as 0 and the strings as nothing.  When no
string field holds a newline, as is the case of every string a strategy
writes, the text has exactly seven newlines. -/
theorem render_seven_lines (s : StatusCmd) (output : OutputData) (hjson : s.Json = false) :
    render s output =
      String.join (List.map (fun kv : String × String => kv.1 ++ ": " ++ kv.2 ++ "\n")
        [("time", toString output.Time), ("width", toString output.Width),
         ("height", toString output.Height), ("signal", output.Signal),
         ("frameid", toString output.FrameID), ("colorspace", output.Colorspace),
         ("format", output.Format)]) ∧
    render s {} = "time: 0\nwidth: 0\nheight: 0\nsignal: \nframeid: 0\ncolorspace: \nformat: \n" ∧
    ('\n' ∉ output.Signal.data → '\n' ∉ output.Colorspace.data → '\n' ∉ output.Format.data →
      (render s output).data.count '\n' = 7) := by
  refine ⟨?_, ?_, ?_⟩
  · apply String.ext
    simp [render, hjson, Sprintf, sprintfChars, String.join]
  · simp only [render, hjson]
    decide
  · intro hs hc hf
    have ht := List.count_eq_zero.mpr (int_toString_no_newline output.Time)
    have hw := List.count_eq_zero.mpr (int_toString_no_newline output.Width)
    have hh := List.count_eq_zero.mpr (int_toString_no_newline output.Height)
    have hi := List.count_eq_zero.mpr (int_toString_no_newline output.FrameID)
    have hs0 := List.count_eq_zero.mpr hs
    have hc0 := List.count_eq_zero.mpr hc
    have hf0 := List.count_eq_zero.mpr hf
    simp only [render, hjson, Sprintf, sprintfChars]
    simp [List.count_append, List.count_cons, ht, hw, hh, hi, hs0, hc0, hf0]

/-- Witness of C18: the seven lines of a 1920x1080 snapshot of the flaky
strategy. -/
theorem render_seven_lines_witness :
    (render {}
      { Width := 1920, Height := 1080, Signal := "yes", Time := 1700000000000,
        Colorspace := "RGB", Format := "HDMI" }).data.count '\n' = 7 :=
  (render_seven_lines {}
    { Width := 1920, Height := 1080, Signal := "yes", Time := 1700000000000,
      Colorspace := "RGB", Format := "HDMI" } rfl).2.2 (by decide) (by decide) (by decide)

/-! Reading back the text of structured mode. -/

theorem digitValue_digitChar (m : Nat) (hm : m < 10) : digitValue (Nat.digitChar m) = some m := by
  interval_cases m <;> rfl

theorem toDigitsCore_append (fuel : Nat) :
    ∀ (n : Nat) (ds : List Char),
      Nat.toDigitsCore 10 fuel n ds = Nat.toDigitsCore 10 fuel n [] ++ ds := by
  induction fuel with
  | zero =>
    intro n ds
    simp [Nat.toDigitsCore]
  | succ k ih =>
    intro n ds
    unfold Nat.toDigitsCore
    show (if n / 10 = 0 then Nat.digitChar (n % 10) :: ds
        else Nat.toDigitsCore 10 k (n / 10) (Nat.digitChar (n % 10) :: ds))
      = (if n / 10 = 0 then [Nat.digitChar (n % 10)]
        else Nat.toDigitsCore 10 k (n / 10) [Nat.digitChar (n % 10)]) ++ ds
    split_ifs
    · rfl
    · rw [ih (n / 10) (Nat.digitChar (n % 10) :: ds), ih (n / 10) [Nat.digitChar (n % 10)]]
      simp

theorem toDigitsCore_succ (k n : Nat) :
    Nat.toDigitsCore 10 (k + 1) n [] =
      if n / 10 = 0 then [Nat.digitChar (n % 10)]
      else Nat.toDigitsCore 10 k (n / 10) [] ++ [Nat.digitChar (n % 10)] := by
  rw [← toDigitsCore_append k (n / 10) [Nat.digitChar (n % 10)]]
  rfl

/-- Reading the decimal digits of `n` adds `n` to the digits read before. -/
theorem parseDigits_toDigitsCore (fuel : Nat) :
    ∀ (n : Nat), n < fuel → ∀ (acc : Nat) (tail : List Char),
      ∃ a, parseDigits acc (Nat.toDigitsCore 10 fuel n [] ++ tail) = parseDigits (a + n) tail ∧
        (acc = 0 → a = 0) := by
  induction fuel with
  | zero =>
    intro n hn
    omega
  | succ k ih =>
    intro n hn acc tail
    rw [toDigitsCore_succ]
    by_cases h : n / 10 = 0
    · rw [if_pos h]
      have hlt : n % 10 < 10 := Nat.mod_lt n (by decide)
      refine ⟨acc * 10, ?_, fun h0 => by rw [h0]⟩
      show parseDigits acc (Nat.digitChar (n % 10) :: tail) = _
      rw [parseDigits, digitValue_digitChar _ hlt]
      have hn10 : n % 10 = n := by omega
      rw [hn10]
    · rw [if_neg h]
      have hlt : n % 10 < 10 := Nat.mod_lt n (by decide)
      obtain ⟨a, ha, ha0⟩ := ih (n / 10) (by omega) acc (Nat.digitChar (n % 10) :: tail)
      refine ⟨a * 10, ?_, fun h0 => by rw [ha0 h0]⟩
      rw [List.append_assoc]
      show parseDigits acc (Nat.toDigitsCore 10 k (n / 10) [] ++ Nat.digitChar (n % 10) :: tail)
        = _
      rw [ha, parseDigits, digitValue_digitChar _ hlt]
      have harith : (a + n / 10) * 10 + n % 10 = a * 10 + n := by omega
      show parseDigits ((a + n / 10) * 10 + n % 10) tail = _
      rw [harith]

/-- The decimal text of a natural number starts with a digit. -/
theorem toDigitsCore_head (fuel : Nat) :
    ∀ (n : Nat), n < fuel →
      ∃ ch cs v, Nat.toDigitsCore 10 fuel n [] = ch :: cs ∧ digitValue ch = some v := by
  induction fuel with
  | zero =>
    intro n hn
    omega
  | succ k ih =>
    intro n hn
    rw [toDigitsCore_succ]
    have hlt : n % 10 < 10 := Nat.mod_lt n (by decide)
    by_cases h : n / 10 = 0
    · rw [if_pos h]
      exact ⟨_, [], _, rfl, digitValue_digitChar _ hlt⟩
    · rw [if_neg h]
      obtain ⟨ch, cs, v, hcs, hv⟩ := ih (n / 10) (by omega)
      exact ⟨ch, cs ++ [Nat.digitChar (n % 10)], v, by rw [hcs]; rfl, hv⟩

theorem nat_repr_data (n : Nat) : (Nat.repr n).data = Nat.toDigitsCore 10 (n + 1) n [] := rfl

theorem digitValue_ne_minus (ch : Char) (v : Nat) (h : digitValue ch = some v) : ch ≠ '-' := by
  intro hc
  have hnone : digitValue '-' = none := rfl
  rw [hc, hnone] at h
  exact Option.noConfusion h

theorem digitValue_ne_quote (ch : Char) (v : Nat) (h : digitValue ch = some v) :
    ch ≠ Char.ofNat 34 := by
  intro hc
  have hnone : digitValue (Char.ofNat 34) = none := rfl
  rw [hc, hnone] at h
  exact Option.noConfusion h

/-- Reading back the decimal text of a natural number gives the number. -/
theorem parseInt_nat_repr (n : Nat) (tail : List Char)
    (htail : ∀ k, parseDigits k tail = (k, tail)) :
    parseInt ((Nat.repr n).data ++ tail) = some ((n : Int), tail) := by
  rw [nat_repr_data]
  obtain ⟨ch, cs, v, hcs, hv⟩ := toDigitsCore_head (n + 1) n (by omega)
  obtain ⟨a, ha, ha0⟩ := parseDigits_toDigitsCore (n + 1) n (by omega) 0 tail
  have hp : parseDigits 0 (ch :: (cs ++ tail)) = (n, tail) := by
    have := ha
    rw [hcs, ha0 rfl, Nat.zero_add, htail] at this
    exact this
  rw [hcs]
  show parseInt (ch :: (cs ++ tail)) = _
  unfold parseInt
  simp only [if_neg (digitValue_ne_minus ch v hv), hv, hp]

/-- Reading back the decimal text of an integer gives the integer: no digit
is lost, whatever the size of the number. -/
theorem parseInt_toString (i : Int) (tail : List Char)
    (htail : ∀ k, parseDigits k tail = (k, tail)) :
    parseInt ((toString i).data ++ tail) = some (i, tail) := by
  cases i with
  | ofNat m => exact parseInt_nat_repr m tail htail
  | negSucc m =>
    show parseInt (("-" ++ Nat.repr (Nat.succ m)).data ++ tail) = _
    rw [String.data_append, nat_repr_data]
    obtain ⟨ch, cs, v, hcs, hv⟩ := toDigitsCore_head (m + 1 + 1) (m + 1) (by omega)
    obtain ⟨a, ha, ha0⟩ := parseDigits_toDigitsCore (m + 1 + 1) (m + 1) (by omega) 0 tail
    have hp : parseDigits 0 (ch :: (cs ++ tail)) = (m + 1, tail) := by
      have := ha
      rw [hcs, ha0 rfl, Nat.zero_add, htail] at this
      exact this
    show parseInt ('-' :: (Nat.toDigitsCore 10 (m + 1 + 1) (m + 1) [] ++ tail)) = _
    rw [hcs]
    show parseInt ('-' :: ch :: (cs ++ tail)) = _
    unfold parseInt
    simp only [if_true, hv, hp]
    rfl

/-- The decimal text of an integer starts with a digit or a minus sign, not
with a quote. -/
theorem int_text_head (i : Int) :
    ∃ ch cs, (toString i).data = ch :: cs ∧ ch ≠ Char.ofNat 34 := by
  cases i with
  | ofNat m =>
    obtain ⟨ch, cs, v, hcs, hv⟩ := toDigitsCore_head (m + 1) m (by omega)
    exact ⟨ch, cs, hcs, digitValue_ne_quote ch v hv⟩
  | negSucc m => exact ⟨'-', (Nat.repr (Nat.succ m)).data, rfl, by decide⟩

theorem hexValue_digitChar (m : Nat) (hm : m < 16) : hexValue (Nat.digitChar m) = some m := by
  interval_cases m <;> rfl

theorem parseStringBody_cons_escape (e : Char) (rest : List Char) (he : e ≠ 'u') :
    parseStringBody (Char.ofNat 92 :: e :: rest) =
      match unescapeShort e, parseStringBody rest with
      | some c, some (body, after) => some (c :: body, after)
      | _, _ => none := by
  rw [parseStringBody.eq_def]
  simp only [if_neg (show ¬ Char.ofNat 92 = Char.ofNat 34 by decide), if_true, if_neg he]

theorem parseStringBody_cons_hex (h1 h2 h3 h4 : Char) (rest : List Char) :
    parseStringBody (Char.ofNat 92 :: 'u' :: h1 :: h2 :: h3 :: h4 :: rest) =
      match hexValue h1, hexValue h2, hexValue h3, hexValue h4, parseStringBody rest with
      | some v1, some v2, some v3, some v4, some (body, after) =>
        some (Char.ofNat (((v1 * 16 + v2) * 16 + v3) * 16 + v4) :: body, after)
      | _, _, _, _, _ => none := by
  rw [parseStringBody.eq_def]
  simp only [if_neg (show ¬ Char.ofNat 92 = Char.ofNat 34 by decide), if_true]

theorem parseStringBody_cons_plain (ch : Char) (rest : List Char) (hq : ch ≠ Char.ofNat 34)
    (hb : ch ≠ Char.ofNat 92) :
    parseStringBody (ch :: rest) =
      match parseStringBody rest with
      | some (body, after) => some (ch :: body, after)
      | none => none := by
  rw [parseStringBody.eq_def]
  simp only [if_neg hq, if_neg hb]

/-- Reading back the escape of one character gives the character. -/
theorem parseStringBody_jsonEscape (ch : Char) (text body after : List Char)
    (h : parseStringBody text = some (body, after)) :
    parseStringBody (jsonEscape ch ++ text) = some (ch :: body, after) := by
  unfold jsonEscape
  split_ifs with c1 c2 c3 c4 c5 c6 c7 c8 c9
  · rcases c1 with rfl | rfl
    · rw [List.cons_append, List.cons_append, List.nil_append,
        parseStringBody_cons_escape _ _ (by decide), h]
      rfl
    · rw [List.cons_append, List.cons_append, List.nil_append,
        parseStringBody_cons_escape _ _ (by decide), h]
      rfl
  · rw [List.cons_append, List.cons_append, List.nil_append,
      parseStringBody_cons_escape _ _ (by decide), h, c2]
    rfl
  · rw [List.cons_append, List.cons_append, List.nil_append,
      parseStringBody_cons_escape _ _ (by decide), h, c3]
    rfl
  · rw [List.cons_append, List.cons_append, List.nil_append,
      parseStringBody_cons_escape _ _ (by decide), h, c4]
    rfl
  · rw [List.cons_append, List.cons_append, List.nil_append,
      parseStringBody_cons_escape _ _ (by decide), h, c5]
    rfl
  · rw [List.cons_append, List.cons_append, List.nil_append,
      parseStringBody_cons_escape _ _ (by decide), h, c6]
    rfl
  · have hlt : ch.toNat < 256 := by
      rcases c7 with h7 | rfl | rfl | rfl
      · omega
      · decide
      · decide
      · decide
    have hhi := hexValue_digitChar (ch.toNat / 16) (by omega)
    have hlo := hexValue_digitChar (ch.toNat % 16) (by omega)
    have h0 : hexValue '0' = some 0 := rfl
    simp only [List.cons_append, List.nil_append]
    rw [parseStringBody_cons_hex, h0, hhi, hlo, h]
    have hval : ((0 * 16 + 0) * 16 + ch.toNat / 16) * 16 + ch.toNat % 16 = ch.toNat := by omega
    simp only [hval, Char.ofNat_toNat]
  · have hch : ch = Char.ofNat 0x2028 := by rw [← c8, Char.ofNat_toNat]
    simp only [List.cons_append, List.nil_append]
    rw [parseStringBody_cons_hex, h, hch]
    rfl
  · have hch : ch = Char.ofNat 0x2029 := by rw [← c9, Char.ofNat_toNat]
    simp only [List.cons_append, List.nil_append]
    rw [parseStringBody_cons_hex, h, hch]
    rfl
  · have hq : ch ≠ Char.ofNat 34 := fun hc => c1 (Or.inl hc)
    have hb : ch ≠ Char.ofNat 92 := fun hc => c1 (Or.inr hc)
    rw [List.cons_append, List.nil_append, parseStringBody_cons_plain ch text hq hb, h]

/-- Reading back the escaped body of a string, up to its closing quote, gives
the string. -/
theorem parseStringBody_escaped (body : List Char) (tail : List Char) :
    parseStringBody (body.flatMap jsonEscape ++ Char.ofNat 34 :: tail) = some (body, tail) := by
  induction body with
  | nil =>
    show parseStringBody (Char.ofNat 34 :: tail) = _
    rw [parseStringBody.eq_def]
    simp
  | cons ch rest ih =>
    rw [List.flatMap_cons, List.append_assoc]
    exact parseStringBody_jsonEscape ch _ rest tail ih

theorem parseDigits_comma (k : Nat) (text : List Char) :
    parseDigits k (',' :: text) = (k, ',' :: text) := rfl

theorem parseDigits_brace (k : Nat) (text : List Char) :
    parseDigits k (Char.ofNat 125 :: text) = (k, Char.ofNat 125 :: text) := rfl

/-- Reading back the text of a value gives the value, when what follows is
no digit. -/
theorem parseValue_text (v : JsonValue) (tail : List Char)
    (htail : ∀ k, parseDigits k tail = (k, tail)) :
    parseValue ((jsonValueText v).data ++ tail) = some (v, tail) := by
  cases v with
  | num n =>
    obtain ⟨ch, cs, hcs, hq⟩ := int_text_head n
    have hp := parseInt_toString n tail htail
    show parseValue ((toString n).data ++ tail) = _
    rw [hcs] at hp ⊢
    show parseValue (ch :: (cs ++ tail)) = _
    unfold parseValue
    simp only [if_neg hq]
    rw [show ch :: (cs ++ tail) = ch :: cs ++ tail from rfl, hp]
  | str s =>
    show parseValue (Char.ofNat 34 :: (s.data.flatMap jsonEscape ++ [Char.ofNat 34]) ++ tail) = _
    rw [List.cons_append, List.append_assoc]
    unfold parseValue
    simp only [if_true, List.singleton_append, parseStringBody_escaped]

/-- Reading back the text of a member gives the member, when its key needs no
escape and what follows is no digit. -/
theorem parseMember_text (key : String) (v : JsonValue) (tail : List Char)
    (hkey : key.data.flatMap jsonEscape = key.data)
    (htail : ∀ k, parseDigits k tail = (k, tail)) :
    parseMember ((jsonMemberText (key, v)).data ++ tail) = some ((key, v), tail) := by
  have hdata : (jsonMemberText (key, v)).data ++ tail
      = Char.ofNat 34 :: (key.data.flatMap jsonEscape ++
          Char.ofNat 34 :: ':' :: ((jsonValueText v).data ++ tail)) := by
    rw [hkey]
    simp [jsonMemberText]
  rw [hdata]
  unfold parseMember
  simp only [if_true, parseStringBody_escaped, parseValue_text v tail htail]

theorem parseMembers_more (fuel : Nat) (key : String) (v : JsonValue) (text : List Char)
    (hkey : key.data.flatMap jsonEscape = key.data) :
    parseMembers (fuel + 1) ((jsonMemberText (key, v)).data ++ ',' :: text) =
      match parseMembers fuel text with
      | some ms => some ((key, v) :: ms)
      | none => none := by
  rw [parseMembers, parseMember_text key v _ hkey (fun k => parseDigits_comma k text)]
  simp only [if_neg (show ¬ ',' = Char.ofNat 125 by decide), if_true]

theorem parseMembers_last (fuel : Nat) (key : String) (v : JsonValue)
    (hkey : key.data.flatMap jsonEscape = key.data) :
    parseMembers (fuel + 1) ((jsonMemberText (key, v)).data ++ [Char.ofNat 125]) =
      some [(key, v)] := by
  rw [parseMembers, parseMember_text key v _ hkey (fun k => parseDigits_brace k [])]
  simp only [if_true]

/-- The characters of the text of structured mode: the seven members between
braces, separated by commas. -/
theorem Marshal_data (output : OutputData) :
    (Marshal output).data =
      Char.ofNat 123 ::
        ((jsonMemberText ("width", JsonValue.num output.Width)).data ++ ',' ::
        ((jsonMemberText ("height", JsonValue.num output.Height)).data ++ ',' ::
        ((jsonMemberText ("signal", JsonValue.str output.Signal)).data ++ ',' ::
        ((jsonMemberText ("time", JsonValue.num output.Time)).data ++ ',' ::
        ((jsonMemberText ("fid", JsonValue.num output.FrameID)).data ++ ',' ::
        ((jsonMemberText ("colorspace", JsonValue.str output.Colorspace)).data ++ ',' ::
        ((jsonMemberText ("format", JsonValue.str output.Format)).data ++
          [Char.ofNat 125]))))))) := by
  simp [Marshal, marshalObject, String.intercalate, String.intercalate.go]

/-- Reading back the text of structured mode gives the object of the seven
members. -/
theorem parseObject_Marshal (output : OutputData) :
    parseObject (Marshal output).data = some (marshalObject output) := by
  rw [Marshal_data]
  unfold parseObject
  simp only [if_true]
  have hne : ∀ (key : String) (v : JsonValue) (text : List Char),
      (jsonMemberText (key, v)).data ++ ',' :: text ≠ [Char.ofNat 125] := by
    intro key v text h
    have hl := congrArg List.length h
    simp [jsonMemberText] at hl
  rw [if_neg (hne _ _ _)]
  have hlen : ∀ (key : String) (v : JsonValue) (text : List Char),
      ((jsonMemberText (key, v)).data ++ ',' :: text).length = text.length + 1 +
        (jsonMemberText (key, v)).data.length := by
    intro key v text
    simp [List.length_append]
    omega
  have hlast : ∀ (key : String) (v : JsonValue),
      ((jsonMemberText (key, v)).data ++ [Char.ofNat 125]).length =
        0 + 1 + (jsonMemberText (key, v)).data.length := by
    intro key v
    simp [List.length_append]
    omega
  generalize hfuel : List.length _ = fuel
  rw [hlen, hlen, hlen, hlen, hlen, hlen, hlast] at hfuel
  obtain ⟨k, rfl⟩ : ∃ k, fuel = k + 7 := ⟨fuel - 7, by omega⟩
  rw [parseMembers_more _ _ _ _ (by decide), parseMembers_more _ _ _ _ (by decide),
    parseMembers_more _ _ _ _ (by decide), parseMembers_more _ _ _ _ (by decide),
    parseMembers_more _ _ _ _ (by decide), parseMembers_more _ _ _ _ (by decide),
    parseMembers_last _ _ _ (by decide)]
  rfl

/-- C19: in structured mode the text emitted for a snapshot is the JSON object
with exactly the seven keys width, height, signal, time, fid, colorspace,
format, in that order and all present for every snapshot, the zero one
included; each member carries the value of its field, the integers as their
full decimal text; and decoding that text gives the snapshot back, field for
field, whatever the size of the time stamp and of the integers. -/
theorem marshal_round_trip (output : OutputData) :
    render { Json := true } output = Marshal output ∧
    Marshal output =
      "\x7b\x22width\x22:" ++ toString output.Width ++
      ",\x22height\x22:" ++ toString output.Height ++
      ",\x22signal\x22:" ++ jsonValueText (JsonValue.str output.Signal) ++
      ",\x22time\x22:" ++ toString output.Time ++
      ",\x22fid\x22:" ++ toString output.FrameID ++
      ",\x22colorspace\x22:" ++ jsonValueText (JsonValue.str output.Colorspace) ++
      ",\x22format\x22:" ++ jsonValueText (JsonValue.str output.Format) ++ "\x7d" ∧
    Marshal {} =
      "\x7b\x22width\x22:0,\x22height\x22:0,\x22signal\x22:\x22\x22,\x22time\x22:0,\x22fid\x22:0,\x22colorspace\x22:\x22\x22,\x22format\x22:\x22\x22\x7d" ∧
    parseObject (Marshal output).data = some (marshalObject output) ∧
    (marshalObject output).map Prod.fst
      = ["width", "height", "signal", "time", "fid", "colorspace", "format"] ∧
    (marshalObject output).lookup "width" = some (JsonValue.num output.Width) ∧
    (marshalObject output).lookup "height" = some (JsonValue.num output.Height) ∧
    (marshalObject output).lookup "signal" = some (JsonValue.str output.Signal) ∧
    (marshalObject output).lookup "time" = some (JsonValue.num output.Time) ∧
    (marshalObject output).lookup "fid" = some (JsonValue.num output.FrameID) ∧
    (marshalObject output).lookup "colorspace" = some (JsonValue.str output.Colorspace) ∧
    (marshalObject output).lookup "format" = some (JsonValue.str output.Format) ∧
    unmarshalObject (marshalObject output) = some output ∧
    Unmarshal (Marshal output) = some output ∧
    Unmarshal (render { Json := true } output) = some output := by
  have hobj : unmarshalObject (marshalObject output) = some output := by
    simp [unmarshalObject, lookupInt, lookupString, marshalObject, List.lookup]
  have htext : Unmarshal (Marshal output) = some output := by
    unfold Unmarshal
    rw [parseObject_Marshal]
    exact hobj
  refine ⟨rfl, ?_, by decide, parseObject_Marshal output, rfl, ?_, ?_, ?_, ?_, ?_, ?_, ?_, hobj,
    htext, htext⟩
  · apply String.ext
    simp [Marshal, marshalObject, String.intercalate, String.intercalate.go, jsonMemberText,
      jsonValueText]
  · simp [marshalObject, List.lookup]
  · simp [marshalObject, List.lookup]
  · simp [marshalObject, List.lookup]
  · simp [marshalObject, List.lookup]
  · simp [marshalObject, List.lookup]
  · simp [marshalObject, List.lookup]
  · simp [marshalObject, List.lookup]

/-- The text and the round trip of C19 on a snapshot with a time stamp of 13
digits and with the largest and the smallest 64-bit integers. -/
theorem marshal_round_trip_example :
    Marshal { Width := 1920, Height := 1080, Signal := "yes", Time := 1700000000000,
              FrameID := 7, Colorspace := "RGB", Format := "HDMI" } =
      "\x7b\x22width\x22:1920,\x22height\x22:1080,\x22signal\x22:\x22yes\x22,\x22time\x22:1700000000000,\x22fid\x22:7,\x22colorspace\x22:\x22RGB\x22,\x22format\x22:\x22HDMI\x22\x7d" ∧
    Unmarshal
      "\x7b\x22width\x22:1920,\x22height\x22:1080,\x22signal\x22:\x22yes\x22,\x22time\x22:1700000000000,\x22fid\x22:7,\x22colorspace\x22:\x22RGB\x22,\x22format\x22:\x22HDMI\x22\x7d"
      = some { Width := 1920, Height := 1080, Signal := "yes", Time := 1700000000000,
               FrameID := 7, Colorspace := "RGB", Format := "HDMI" } ∧
    Unmarshal (Marshal { Time := 9223372036854775807, FrameID := -9223372036854775808 })
      = some { Time := 9223372036854775807, FrameID := -9223372036854775808 } := by
  decide

end Status
